import Mathlib

/-!
Bulletin board server (`src/server/server.cpp`).

A shallow embedding of the `BulletinBoard` class and of the command dispatch of
`Server::handle_client`.

Conventions of the embedding

* `std::string` is a Lean `String`, compared character by character (the text
  is taken to be valid UTF-8, for which the order on code points is the order
  on bytes: `key_lt_iff_bytes_lt`).
* `int` is an `Int` wrapped into the 32-bit signed range by `wrap32` wherever the
  source does arithmetic or a cast on it.
* `std::map<std::string, T>` is an association list kept in strictly ascending
  key order, which is also the iteration order of the map.
* `send_all(sock, msg)` appends the pair `(sock, msg)` to the list of sends of
  the operation, in program order.
* A thrown `std::runtime_error` is the `error` field of the `Outcome`, holding
  the text of `what()`.
* `current_timestamp()` reads the clock, so its result is an argument of
  `group_post`.
-/

namespace BBS

/-! ## Machine integers -/

/-- The value of a C++ `int` holding the mathematical integer `x` after
two's-complement wrap-around to 32 bits. -/
def wrap32 (x : Int) : Int := (x + 2147483648) % 4294967296 - 2147483648

/-- The integers an `int` can hold. -/
def isInt32 (x : Int) : Prop := -2147483648 ≤ x ∧ x ≤ 2147483647

instance (x : Int) : Decidable (isInt32 x) := by unfold isInt32; infer_instance

/-! ## `std::map<std::string, T>` -/

/-- A map with string keys: its entries in iteration (ascending key) order. -/
abbrev StrMap (α : Type) := List (String × α)

namespace StrMap

variable {α : Type}

/-- The comparison `a < b` of two `std::string` keys: lexicographic on the
characters. -/
def key_lt (a b : String) : Prop := a.data < b.data

instance (a b : String) : Decidable (key_lt a b) := by unfold key_lt; infer_instance

/-- The keys of the map, in iteration order. -/
def keys (m : StrMap α) : List String := m.map Prod.fst

/-- The invariant of `std::map`: keys are strictly ascending (so pairwise distinct). -/
def WF (m : StrMap α) : Prop := (keys m).Pairwise key_lt

instance (m : StrMap α) : Decidable (WF m) := by unfold WF; infer_instance

/-- The result of `m.find(k)`: the mapped value, or `none` for `m.end()`. -/
def find (m : StrMap α) (k : String) : Option α :=
  match m with
  | [] => none
  | (k', v) :: rest => if k' = k then some v else find rest k

/-- The result of `m.count(k)`, which is `0` or `1` for a `std::map`. -/
def count (m : StrMap α) (k : String) : Nat :=
  match find m k with
  | some _ => 1
  | none => 0

/-- The effect of `m[k] = v`: overwrite the value under `k`, or insert `(k, v)`
at its place in key order. -/
def assign (m : StrMap α) (k : String) (v : α) : StrMap α :=
  match m with
  | [] => [(k, v)]
  | (k', v') :: rest =>
    if key_lt k k' then (k, v) :: (k', v') :: rest
    else if k = k' then (k, v) :: rest
    else (k', v') :: assign rest k v

/-- The effect of a write through the pointer stored under `k`: the mapped value
becomes `v`, the keys stay as they are. -/
def store (m : StrMap α) (k : String) (v : α) : StrMap α :=
  m.map (fun p => if p.1 = k then (p.1, v) else p)

/-- The effect of `m.erase(it)` for `it = m.find(k)`, `it != m.end()`: the entry
under `k` is removed. -/
def erase (m : StrMap α) (k : String) : StrMap α :=
  match m with
  | [] => []
  | (k', v) :: rest => if k' = k then rest else (k', v) :: erase rest k

end StrMap

/-! ## `BulletinBoard` -/

/-- One call of `send_all(sock, msg)`: the socket and the text written to it. -/
abbrev Send := Int × String

/-- The body of `send_all`. -/
def send_all (sock : Int) (msg : String) : Send := (sock, msg)

/-- The data members of `BulletinBoard` (the mutex apart). -/
structure BulletinBoard where
  messages_ : List String
  members_ : StrMap Int
  deriving DecidableEq, Repr

/-- What a member function leaves behind: the object after the call, the sends
it made in order, and the `what()` text of the exception it threw, if any. -/
structure Outcome where
  board : BulletinBoard
  sent : List Send
  error : Option String
  deriving DecidableEq, Repr

namespace BulletinBoard

/-- The default-constructed board. -/
def empty : BulletinBoard := { messages_ := [], members_ := [] }

/-- The text thrown by `group_join` for a user who is already in the group. -/
def already_member_error (username : String) : String :=
  "user " ++ username ++ " is already a member of this group."

/-- The text thrown by `group_post`, `group_leave` and `group_message` for a
user who is not in the group. -/
def not_member_error (username : String) : String :=
  "User '" ++ username ++ "' is not a member of this group."

/-- The member function `group_join(username, conn_fd)`. -/
def group_join (b : BulletinBoard) (username : String) (conn_fd : Int) : Outcome :=
  if b.members_.count username > 0 then
    { board := b, sent := [], error := some (already_member_error username) }
  else
    { board := { b with members_ := b.members_.assign username conn_fd },
      sent := [], error := none }

/-- The `int post_id` computed by `group_post`:
`static_cast<int>(messages_.size()) + 1`. -/
def post_id (b : BulletinBoard) : Int := wrap32 (wrap32 (b.messages_.length : Int) + 1)

/-- The text built in `full_post`. -/
def full_post (id : Int) (username post_date subject message : String) : String :=
  toString id ++ ", " ++ username ++ ", " ++ post_date ++ ", " ++ subject ++ ", " ++ message

/-- The text built in `thumb_post`. -/
def thumb_post (id : Int) (username post_date subject : String) : String :=
  toString id ++ ", " ++ username ++ ", " ++ post_date ++ ", " ++ subject

/-- The member function `group_post(username, subject, message)`; `post_date` is
the value `current_timestamp()` returns during the call. -/
def group_post (b : BulletinBoard) (username subject message post_date : String) : Outcome :=
  if b.members_.count username = 0 then
    { board := b, sent := [], error := some (not_member_error username) }
  else
    let post := full_post (post_id b) username post_date subject message
    let thumb := thumb_post (post_id b) username post_date subject
    { board := { b with messages_ := b.messages_ ++ [post] },
      sent := b.members_.map (fun pair => send_all pair.2 thumb),
      error := none }

/-- The comma-joined user names built by the first loop of `group_users`. -/
def user_list : List String → String
  | [] => ""
  | [u] => u
  | u :: rest => u ++ ", " ++ user_list rest

/-- The member function `group_users(username)`; the default argument is `""`. -/
def group_users (b : BulletinBoard) (username : String) : Outcome :=
  if b.members_.isEmpty then
    { board := b, sent := [], error := none }
  else
    let msg := "users: " ++ user_list b.members_.keys ++ " \n"
    if username = "" then
      { board := b, sent := b.members_.map (fun p => send_all p.2 msg), error := none }
    else
      match b.members_.find username with
      | some sock => { board := b, sent := [send_all sock msg], error := none }
      | none => { board := b, sent := [], error := none }

/-- The member function `group_leave(username)`. -/
def group_leave (b : BulletinBoard) (username : String) : Outcome :=
  match b.members_.find username with
  | none => { board := b, sent := [], error := some (not_member_error username) }
  | some _ =>
    { board := { b with members_ := b.members_.erase username }, sent := [], error := none }

/-- The bounds notice built in the `else` branch of `group_message`; the count
is printed as the `size_t` it is. -/
def not_found_notice (size : Nat) : String :=
  "message not found, should be in the range 1 - " ++ toString size ++ ", inclusive.\n"

/-- The member function `group_message(username, message_id)`. -/
def group_message (b : BulletinBoard) (username : String) (message_id : Int) : Outcome :=
  match b.members_.find username with
  | none => { board := b, sent := [], error := some (not_member_error username) }
  | some sock =>
    let message_index := wrap32 (message_id - 1)
    if message_index ≥ 0 ∧ message_index < wrap32 (b.messages_.length : Int) then
      { board := b,
        sent := [send_all sock (b.messages_.getD message_index.toNat "")],
        error := none }
    else
      { board := b, sent := [send_all sock (not_found_notice b.messages_.length)],
        error := none }

/-- The member function `send_prev_two_messages(username)`. -/
def send_prev_two_messages (b : BulletinBoard) (username : String) : Outcome :=
  match b.members_.find username with
  | none => { board := b, sent := [], error := none }
  | some sock =>
    let count := wrap32 (b.messages_.length : Int)
    if count ≥ 2 then
      { board := b,
        sent := [send_all sock (b.messages_.getD (count - 2).toNat "" ++ "\n"),
                 send_all sock (b.messages_.getD (count - 1).toNat "" ++ "\n")],
        error := none }
    else if count = 1 then
      { board := b, sent := [send_all sock (b.messages_.getD 0 "" ++ "\n")], error := none }
    else
      { board := b, sent := [], error := none }

/-- The member function `has_member(username)`. -/
def has_member (b : BulletinBoard) (username : String) : Bool :=
  b.members_.count username > 0

end BulletinBoard

/-! ## `trim` -/

/-- The C-locale `std::isspace`: space, `\t`, `\n`, `\v`, `\f`, `\r`. -/
def isspace (c : Char) : Bool :=
  c.toNat = 32 || (9 ≤ c.toNat && c.toNat ≤ 13)

/-- The test `std::isspace(s[i])`; the index is in range wherever `trim` asks. -/
def space_at (s : List Char) (i : Nat) : Bool :=
  match s[i]? with
  | some c => isspace c
  | none => false

/-- The first loop of `trim`, from the current `start`; it takes at most
`s.size()` rounds, which is the `fuel` it is run with. -/
def trim_start (s : List Char) (fuel : Nat) (start : Nat) : Nat :=
  match fuel with
  | 0 => start
  | fuel + 1 =>
    if start < s.length ∧ space_at s start then trim_start s fuel (start + 1) else start

/-- The second loop of `trim`, from the current `end`; it takes at most
`s.size()` rounds, which is the `fuel` it is run with. -/
def trim_end (s : List Char) (start : Nat) (fuel : Nat) (e : Nat) : Nat :=
  match fuel with
  | 0 => e
  | fuel + 1 =>
    if e > start ∧ space_at s e then trim_end s start fuel (e - 1) else e

/-- The function `trim`. -/
def trim (s : String) : String :=
  if s.data.isEmpty then s
  else
    let start := trim_start s.data s.data.length 0
    if start = s.data.length then ""
    else
      let e := trim_end s.data start s.data.length (s.data.length - 1)
      ⟨(s.data.drop start).take (e - start + 1)⟩

/-! ## `Server` -/

/-- The member `bulletinboards_`: group name to board. -/
abbrev Boards := StrMap BulletinBoard

/-- The boards created by the constructor of `Server`. -/
def Server_init : Boards :=
  [("default", BulletinBoard.empty), ("group1", BulletinBoard.empty),
   ("group2", BulletinBoard.empty), ("group3", BulletinBoard.empty),
   ("group4", BulletinBoard.empty), ("group5", BulletinBoard.empty)]

/-- The member function `get_board(group)`; `none` is the null pointer. -/
def get_board (boards : Boards) (group : String) : Option BulletinBoard :=
  boards.find group

/-- The member function `username_exists_anywhere(username)`. -/
def username_exists_anywhere (boards : Boards) (username : String) : Bool :=
  boards.any (fun pair => pair.2.has_member username)

/-- How the handshake of `handle_client` ends: the connection is closed, the
thread is still blocked in `recv`, or the main loop is entered with a username. -/
inductive Handshake where
  | closed
  | waiting
  | active (username : String)
  deriving DecidableEq, Repr

/-- The uniqueness loop of `handle_client` for the candidate `username`, fed
with the chunks the following calls of `recv` return (`""` for `n <= 0`). -/
def handshake_loop (boards : Boards) (client_fd : Int) :
    String → List String → List Send × Handshake
  | username, [] =>
    if username_exists_anywhere boards username then
      ([send_all client_fd "username already exists, please choose another username: \n"],
        Handshake.waiting)
    else ([], Handshake.active username)
  | username, chunk :: rest =>
    if username_exists_anywhere boards username then
      let prompt :=
        send_all client_fd "username already exists, please choose another username: \n"
      if chunk = "" then ([prompt], Handshake.closed)
      else
        let r := handshake_loop boards client_fd (trim chunk) rest
        (prompt :: r.1, r.2)
    else ([], Handshake.active username)

/-- The handshake of `handle_client`: prompt, first `recv`, uniqueness loop. -/
def handshake (boards : Boards) (client_fd : Int) (chunks : List String) :
    List Send × Handshake :=
  let prompt := send_all client_fd "Enter a username: \n"
  match chunks with
  | [] => ([prompt], Handshake.waiting)
  | chunk :: rest =>
    if chunk = "" then ([prompt], Handshake.closed)
    else
      let r := handshake_loop boards client_fd (trim chunk) rest
      (prompt :: r.1, r.2)

/-- What the accessors of the parsed JSON request yield; `json.hpp` is a
library outside the repository, so each field is the value of
`request.at(name).get<T>()`, or `none` when that call throws. -/
structure Request where
  command : Option String
  group : Option String
  subject : Option String
  message : Option String
  message_id : Option Int
  deriving DecidableEq, Repr

/-- The state of the session loop of `handle_client`. -/
inductive Status where
  | Active
  | Closed
  deriving DecidableEq, Repr

/-- What one round of the main loop of `handle_client` leaves behind: the
boards, the sends in order, and whether the loop goes on. -/
structure Round where
  boards : Boards
  sent : List Send
  status : Status
  deriving DecidableEq, Repr

/-- The reply sent when `get_board` returns the null pointer. -/
def no_group_error (group : String) : String :=
  "Error: Group '" ++ group ++ "' does not exist.\n"

/-- The handler `catch (const std::runtime_error &e)`: the sends made before the
throw, then the error text to the client. The board written back is the one
the member function left behind. -/
def finish (boards : Boards) (group : String) (client_fd : Int) (o : Outcome) : Round :=
  match o.error with
  | some what =>
    { boards := boards.store group o.board,
      sent := o.sent ++ [send_all client_fd ("Error: " ++ what ++ "\n")],
      status := Status.Active }
  | none => { boards := boards.store group o.board, sent := o.sent, status := Status.Active }

/-- Sequencing of two member-function calls inside the `try` block: the second
runs only if the first did not throw. -/
def Outcome.and_then (o : Outcome) (next : BulletinBoard → Outcome) : Outcome :=
  match o.error with
  | some _ => o
  | none =>
    let o2 := next o.board
    { board := o2.board, sent := o.sent ++ o2.sent, error := o2.error }

/-- The `%exit` loop over `bulletinboards_`: `group_leave` on every board, its
exception ignored. -/
def exit_all (boards : Boards) (username : String) : Boards × List Send :=
  (boards.map (fun pair => (pair.1, (pair.2.group_leave username).board)),
   (boards.map (fun pair => (pair.2.group_leave username).sent)).flatten)

/-- The comma-joined group names built by `%groups`. -/
def groups_list : List String → String
  | [] => ""
  | [g] => g
  | g :: rest => g ++ ", " ++ groups_list rest

/-- The `try` block of the main loop of `handle_client` for an extracted
`command`: the `if`/`else if` chain with its two `catch` handlers. A field
whose accessor throws is caught by `catch (...)` and the request is dropped. -/
def dispatch (boards : Boards) (username : String) (client_fd : Int) (post_date : String)
    (command : String) (request : Request) : Round :=
  let drop : Round := { boards := boards, sent := [], status := Status.Active }
  let missing (group : String) : Round :=
    { boards := boards, sent := [send_all client_fd (no_group_error group)],
      status := Status.Active }
  if command = "%groupjoin" then
    match request.group with
    | none => drop
    | some group =>
      match get_board boards group with
      | none => missing group
      | some board =>
        finish boards group client_fd
          (((board.group_join username client_fd).and_then
            (fun b => b.group_users "")).and_then
            (fun b => b.send_prev_two_messages username))
  else if command = "%grouppost" then
    match request.group, request.subject, request.message with
    | some group, some subject, some message =>
      match get_board boards group with
      | none => missing group
      | some board =>
        finish boards group client_fd (board.group_post username subject message post_date)
    | _, _, _ => drop
  else if command = "%groupusers" then
    match request.group with
    | none => drop
    | some group =>
      match get_board boards group with
      | none => missing group
      | some board => finish boards group client_fd (board.group_users username)
  else if command = "%groupleave" then
    match request.group with
    | none => drop
    | some group =>
      match get_board boards group with
      | none => missing group
      | some board =>
        finish boards group client_fd
          ((board.group_leave username).and_then (fun b => b.group_users ""))
  else if command = "%groupmessage" then
    match request.group, request.message_id with
    | some group, some message_id =>
      match get_board boards group with
      | none => missing group
      | some board => finish boards group client_fd (board.group_message username message_id)
    | _, _ => drop
  else if command = "%exit" then
    { boards := (exit_all boards username).1, sent := (exit_all boards username).2,
      status := Status.Closed }
  else if command = "%groups" then
    { boards := boards,
      sent := [send_all client_fd ("available groups: " ++ groups_list boards.keys)],
      status := Status.Active }
  else drop

/-- One round of the main loop of `handle_client` on the chunk `recv_request`
returns (`""` for `n <= 0`); `parse` stands for `json::parse` followed by the
field accessors, `none` when `json::parse` throws. -/
def handle_round (parse : String → Option Request) (boards : Boards) (username : String)
    (client_fd : Int) (post_date : String) (req_str : String) : Round :=
  if req_str = "" then { boards := boards, sent := [], status := Status.Closed }
  else
    match parse (trim req_str) with
    | none => { boards := boards, sent := [], status := Status.Active }
    | some request =>
      match request.command with
      | none => { boards := boards, sent := [], status := Status.Active }
      | some command => dispatch boards username client_fd post_date command request

/-! ## Sequences of calls on one board -/

open BulletinBoard

/-- A call of one of the six public member functions that act on a board, with
its arguments (and, for `group_post`, the timestamp the clock gives). -/
inductive Call where
  | join (username : String) (conn_fd : Int)
  | post (username subject message post_date : String)
  | users (username : String)
  | leave (username : String)
  | message (username : String) (message_id : Int)
  | prev_two (username : String)
  deriving DecidableEq, Repr

/-- The outcome of a call on a board. -/
def run_call (b : BulletinBoard) : Call → Outcome
  | Call.join username conn_fd => b.group_join username conn_fd
  | Call.post username subject message post_date =>
    b.group_post username subject message post_date
  | Call.users username => b.group_users username
  | Call.leave username => b.group_leave username
  | Call.message username message_id => b.group_message username message_id
  | Call.prev_two username => b.send_prev_two_messages username

/-- The board after a sequence of calls, each run on what the previous one left
behind, whether it threw or not. -/
def run_calls (b : BulletinBoard) : List Call → BulletinBoard
  | [] => b
  | c :: rest => run_calls (run_call b c).board rest

/-- The record of the data model: what a post is made of, its id apart. -/
structure Post where
  author : String
  timestamp : String
  subject : String
  body : String
  deriving DecidableEq, Repr

/-- The posts that the calls of a sequence made, in order: the `group_post`
calls that did not throw. -/
def posts_of (b : BulletinBoard) : List Call → List Post
  | [] => []
  | Call.post username subject message post_date :: rest =>
    if (b.group_post username subject message post_date).error = none then
      { author := username, timestamp := post_date, subject := subject, body := message } ::
        posts_of (b.group_post username subject message post_date).board rest
    else posts_of (b.group_post username subject message post_date).board rest
  | c :: rest => posts_of (run_call b c).board rest

/-- The log entries of the posts `ps` when the log holds `n` messages before the
first of them: each formatted by `full_post` with the id `group_post` computes
from the length of the log at that moment. -/
def stamped (n : Nat) : List Post → List String
  | [] => []
  | p :: ps =>
    full_post (wrap32 (wrap32 (n : Int) + 1)) p.author p.timestamp p.subject p.body ::
      stamped (n + 1) ps

/-! ## Sends that fail -/

/-- What a call of `::send(sock, ..., 0)` comes to: the text is handed to the
connection; the call returns -1 (a bad descriptor, a reset connection); or the
peer has closed the connection and the call raises `SIGPIPE`. The program
passes the flags `0`, not `MSG_NOSIGNAL`, and `main` installs no handler for
`SIGPIPE`, so that signal ends the process. -/
inductive SendResult where
  | delivered
  | failed
  | sigpipe
  deriving DecidableEq, Repr

/-- One call of `send_all` together with what `::send` made of it. -/
structure Attempt where
  sock : Int
  msg : String
  result : SendResult
  deriving DecidableEq, Repr

/-- The body of `send_all` when its call of `::send` has the result `result`:
the attempt, and whether the process is still running after it. The return
value of `::send` is dropped and nothing is thrown, so an error return goes
unnoticed; on `SIGPIPE` the process has ended. -/
def send_all_on (result : SendResult) (sock : Int) (msg : String) : Attempt × Bool :=
  ({ sock := sock, msg := msg, result := result }, decide (result ≠ SendResult.sigpipe))

/-- The broadcast loop of `group_post` over the members from position `k` on,
when the send to the member at position `i` has the result `net i`: the
attempts made, and whether the loop ran to its end. The `catch (...)` around
`send_all` is never entered; the loop stops where the process ends. -/
def broadcast_on (net : Nat → SendResult) (thumb : String) :
    Nat → StrMap Int → List Attempt × Bool
  | _, [] => ([], true)
  | k, pair :: rest =>
    if (send_all_on (net k) pair.2 thumb).2 then
      ((send_all_on (net k) pair.2 thumb).1 :: (broadcast_on net thumb (k + 1) rest).1,
       (broadcast_on net thumb (k + 1) rest).2)
    else ([(send_all_on (net k) pair.2 thumb).1], false)

/-- The member function `group_post` when the send to the member at position
`i` of the broadcast has the result `net i`: what the call leaves behind, or
`none` when the process ended before the call returned, and the attempts of
the broadcast. -/
def group_post_on (net : Nat → SendResult) (b : BulletinBoard)
    (username subject message post_date : String) : Option Outcome × List Attempt :=
  if b.members_.count username = 0 then
    (some { board := b, sent := [], error := some (not_member_error username) }, [])
  else
    let post := full_post (post_id b) username post_date subject message
    let thumb := thumb_post (post_id b) username post_date subject
    let attempts := broadcast_on net thumb 0 b.members_
    if attempts.2 then
      (some { board := { b with messages_ := b.messages_ ++ [post] },
              sent := attempts.1.map (fun a => (a.sock, a.msg)),
              error := none }, attempts.1)
    else (none, attempts.1)

/-! ## `trim` with its indices checked -/

/-- The first loop of `trim` with the access `s[start]` checked: `none` when
the index is outside the string, and when the loop has not ended after `fuel`
tests of its condition. -/
def trim_start_checked (s : List Char) : Nat → Nat → Option Nat
  | 0, _ => none
  | fuel + 1, start =>
    if start < s.length then
      match s[start]? with
      | none => none
      | some c => if isspace c then trim_start_checked s fuel (start + 1) else some start
    else some start

/-- The second loop of `trim` with the access `s[end]` checked: `none` when the
index is outside the string, and when the loop has not ended after `fuel`
tests of its condition. -/
def trim_end_checked (s : List Char) (start : Nat) : Nat → Nat → Option Nat
  | 0, _ => none
  | fuel + 1, e =>
    if e > start then
      match s[e]? with
      | none => none
      | some c => if isspace c then trim_end_checked s start fuel (e - 1) else some e
    else some e

/-- The function `trim` with every access checked: `none` when an index `s[i]`
is outside the string, when `end - start + 1` would wrap around, when `substr`
would throw for a position beyond the end, or when a loop has not ended after
`s.size() + 1` tests of its condition. -/
def trim_checked (s : String) : Option String :=
  if s.data.isEmpty then some s
  else
    match trim_start_checked s.data (s.data.length + 1) 0 with
    | none => none
    | some start =>
      if start = s.data.length then some ""
      else
        match trim_end_checked s.data start (s.data.length + 1) (s.data.length - 1) with
        | none => none
        | some e =>
          if start ≤ e ∧ start ≤ s.data.length then
            some ⟨(s.data.drop start).take (e - start + 1)⟩
          else none

/-! ## The bytes of a `std::string` -/

/-- The UTF-8 encoding of the code point `n`, as the byte values. -/
def utf8_code (n : Nat) : List Nat :=
  if n < 128 then [n]
  else if n < 2048 then [192 + n / 64, 128 + n % 64]
  else if n < 65536 then [224 + n / 4096, 128 + n / 64 % 64, 128 + n % 64]
  else [240 + n / 262144, 128 + n / 4096 % 64, 128 + n / 64 % 64, 128 + n % 64]

/-- The bytes of a text in UTF-8, character after character. -/
def utf8_chars : List Char → List Nat
  | [] => []
  | c :: rest => utf8_code c.toNat ++ utf8_chars rest

/-- The bytes that the `std::string` holding the text `s` is made of. -/
def utf8_bytes (s : String) : List Nat := utf8_chars s.data

/-! ## Facts about the embedding -/

theorem wrap32_of_isInt32 (x : Int) (h : isInt32 x) : wrap32 x = x := by
  unfold isInt32 at h
  unfold wrap32
  omega

theorem wrap32_le (x : Int) : wrap32 x ≤ 2147483647 := by
  unfold wrap32
  omega

theorem wrap32_ge (x : Int) : -2147483648 ≤ wrap32 x := by
  unfold wrap32
  omega

theorem wrap32_length_le (n : Nat) : wrap32 (n : Int) ≤ n := by
  unfold wrap32
  omega

theorem post_id_of_lt (b : BulletinBoard) (h : b.messages_.length < 2147483647) :
    post_id b = (b.messages_.length : Int) + 1 := by
  unfold post_id wrap32
  omega

namespace StrMap

variable {α : Type}

theorem key_lt_irrefl (a : String) : ¬ key_lt a a := by
  unfold key_lt
  exact lt_irrefl _

theorem key_lt_trans {a b c : String} (h₁ : key_lt a b) (h₂ : key_lt b c) : key_lt a c := by
  unfold key_lt at *
  exact lt_trans h₁ h₂

theorem key_lt_of_not {a b : String} (h₁ : ¬ key_lt a b) (h₂ : a ≠ b) : key_lt b a := by
  unfold key_lt at *
  rcases lt_trichotomy a.data b.data with h | h | h
  · exact absurd h h₁
  · exact absurd (String.ext h) h₂
  · exact h

theorem count_eq_zero_iff (m : StrMap α) (k : String) : count m k = 0 ↔ find m k = none := by
  unfold count
  cases find m k <;> simp

theorem count_pos_iff (m : StrMap α) (k : String) : count m k > 0 ↔ ∃ v, find m k = some v := by
  unfold count
  cases find m k <;> simp

theorem find_assign_self (m : StrMap α) (k : String) (v : α) :
    find (assign m k v) k = some v := by
  induction m with
  | nil => simp [assign, find]
  | cons p rest ih =>
    obtain ⟨k', v'⟩ := p
    unfold assign
    by_cases h₁ : key_lt k k'
    · simp [h₁, find]
    · by_cases h₂ : k = k'
      · subst h₂
        simp [h₁, find]
      · have h₃ : ¬ k' = k := fun h => h₂ h.symm
        simp [h₁, h₂, find, h₃, ih]

theorem find_assign_ne (m : StrMap α) (k x : String) (v : α) (hx : x ≠ k) :
    find (assign m k v) x = find m x := by
  have hx' : ¬ k = x := fun h => hx h.symm
  induction m with
  | nil => simp [assign, find, hx']
  | cons p rest ih =>
    obtain ⟨k', v'⟩ := p
    unfold assign
    by_cases h₁ : key_lt k k'
    · simp [h₁, find, hx']
    · by_cases h₂ : k = k'
      · subst h₂
        simp [h₁, find, hx']
      · simp only [h₁, h₂, if_false, find, ih]

theorem find_erase_ne (m : StrMap α) (k x : String) (hx : x ≠ k) :
    find (erase m k) x = find m x := by
  induction m with
  | nil => simp [erase]
  | cons p rest ih =>
    obtain ⟨k', v'⟩ := p
    unfold erase
    by_cases h₁ : k' = k
    · subst h₁
      have : ¬ k' = x := fun h => hx h.symm
      simp [find, this]
    · simp only [h₁, if_false, find, ih]

theorem find_eq_none_of_forall_ne (m : StrMap α) (k : String)
    (h : ∀ a ∈ keys m, a ≠ k) : find m k = none := by
  induction m with
  | nil => simp [find]
  | cons p rest ih =>
    obtain ⟨k', v'⟩ := p
    have h₁ : k' ≠ k := h k' (by simp [keys])
    have h₂ : ∀ a ∈ keys rest, a ≠ k := fun a ha => h a (by simp [keys] at ha ⊢; exact Or.inr ha)
    simp [find, h₁, ih h₂]

theorem mem_keys_of_find (m : StrMap α) (k : String) (v : α) (h : find m k = some v) :
    (k, v) ∈ m := by
  induction m with
  | nil => simp [find] at h
  | cons p rest ih =>
    obtain ⟨k', v'⟩ := p
    unfold find at h
    by_cases h₁ : k' = k
    · simp [h₁] at h
      simp [h₁, h]
    · simp [h₁] at h
      exact List.mem_cons_of_mem _ (ih h)

theorem find_erase_self (m : StrMap α) (k : String) (hm : WF m) : find (erase m k) k = none := by
  induction m with
  | nil => simp [erase, find]
  | cons p rest ih =>
    obtain ⟨k', v'⟩ := p
    have hm' : (∀ a ∈ keys rest, key_lt k' a) ∧ WF rest := by
      simpa [WF, keys] using hm
    unfold erase
    by_cases h₁ : k' = k
    · subst h₁
      simp only [if_true]
      apply find_eq_none_of_forall_ne
      intro a ha h
      subst h
      exact key_lt_irrefl _ (hm'.1 a ha)
    · simp only [h₁, if_false, find]
      exact ih hm'.2

theorem keys_erase_sublist (m : StrMap α) (k : String) : (keys (erase m k)).Sublist (keys m) := by
  induction m with
  | nil => simp [erase]
  | cons p rest ih =>
    obtain ⟨k', v'⟩ := p
    unfold erase
    by_cases h₁ : k' = k
    · simp [h₁, keys]
    · simpa [h₁, keys] using ih

theorem WF_erase (m : StrMap α) (k : String) (hm : WF m) : WF (erase m k) :=
  List.Pairwise.sublist (keys_erase_sublist m k) hm

theorem mem_keys_assign (m : StrMap α) (k : String) (v : α) (a : String)
    (ha : a ∈ keys (assign m k v)) : a = k ∨ a ∈ keys m := by
  induction m with
  | nil => simpa [assign, keys] using ha
  | cons p rest ih =>
    obtain ⟨k', v'⟩ := p
    unfold assign at ha
    by_cases h₁ : key_lt k k'
    · simpa [h₁, keys] using ha
    · by_cases h₂ : k = k'
      · subst h₂
        simp only [h₁, if_false, if_true, keys, List.map_cons, List.mem_cons] at ha
        rcases ha with ha | ha
        · exact Or.inl ha
        · right
          simp only [keys, List.map_cons, List.mem_cons]
          exact Or.inr ha
      · simp [h₁, h₂, keys] at ha
        rcases ha with ha | ha
        · simp [keys, ha]
        · rcases ih (by simpa [keys] using ha) with h | h
          · exact Or.inl h
          · simp [keys] at h ⊢
            exact Or.inr (Or.inr h)

theorem WF_assign (m : StrMap α) (k : String) (v : α) (hm : WF m) : WF (assign m k v) := by
  induction m with
  | nil => simp [assign, WF, keys]
  | cons p rest ih =>
    obtain ⟨k', v'⟩ := p
    have hm' : (∀ a ∈ keys rest, key_lt k' a) ∧ WF rest := by
      simpa [WF, keys] using hm
    unfold assign
    by_cases h₁ : key_lt k k'
    · simp only [h₁, if_true]
      have : WF ((k', v') :: rest) := hm
      simp only [WF, keys, List.map_cons, List.pairwise_cons] at this ⊢
      refine ⟨?_, this⟩
      intro a ha
      rcases List.mem_cons.1 ha with h | h
      · rw [h]; exact h₁
      · exact key_lt_trans h₁ (this.1 a h)
    · by_cases h₂ : k = k'
      · subst h₂
        simpa [h₁, WF, keys] using hm
      · simp only [h₁, h₂, if_false]
        have hlt : key_lt k' k := key_lt_of_not h₁ h₂
        have ih' := ih hm'.2
        simp only [WF, keys, List.map_cons, List.pairwise_cons]
        refine ⟨?_, ih'⟩
        intro a ha
        rcases mem_keys_assign rest k v a ha with h | h
        · rw [h]; exact hlt
        · exact hm'.1 a h

theorem assign_perm (m : StrMap α) (k : String) (v : α) (h : find m k = none) :
    List.Perm (assign m k v) ((k, v) :: m) := by
  induction m with
  | nil => simp [assign]
  | cons p rest ih =>
    obtain ⟨k', v'⟩ := p
    unfold find at h
    by_cases h₂ : k' = k
    · simp [h₂] at h
    · simp only [h₂, if_false] at h
      have h₃ : ¬ k = k' := fun e => h₂ e.symm
      unfold assign
      by_cases h₁ : key_lt k k'
      · simp [h₁]
      · simp only [h₁, h₃, if_false]
        exact (List.Perm.cons _ (ih h)).trans (List.Perm.swap _ _ _)

theorem erase_perm (m : StrMap α) (k : String) (v : α) (h : find m k = some v) :
    List.Perm ((k, v) :: erase m k) m := by
  induction m with
  | nil => simp [find] at h
  | cons p rest ih =>
    obtain ⟨k', v'⟩ := p
    unfold find at h
    unfold erase
    by_cases h₂ : k' = k
    · simp [h₂] at h
      simp [h₂, h]
    · simp only [h₂, if_false] at h ⊢
      exact (List.Perm.swap _ _ _).trans (List.Perm.cons _ (ih h))

end StrMap

namespace BulletinBoard

theorem group_join_messages (b : BulletinBoard) (u : String) (c : Int) :
    (b.group_join u c).board.messages_ = b.messages_ := by
  unfold group_join
  by_cases h : b.members_.count u > 0
  · simp only [if_pos h]
  · simp only [if_neg h]

theorem group_users_board (b : BulletinBoard) (u : String) : (b.group_users u).board = b := by
  unfold group_users
  by_cases h₁ : b.members_.isEmpty = true
  · simp only [if_pos h₁]
  · by_cases h₂ : u = ""
    · simp only [if_neg h₁, if_pos h₂]
    · simp only [if_neg h₁, if_neg h₂]
      cases b.members_.find u <;> rfl

theorem group_leave_messages (b : BulletinBoard) (u : String) :
    (b.group_leave u).board.messages_ = b.messages_ := by
  unfold group_leave
  cases b.members_.find u <;> rfl

theorem group_message_board (b : BulletinBoard) (u : String) (id : Int) :
    (b.group_message u id).board = b := by
  unfold group_message
  cases b.members_.find u with
  | none => rfl
  | some sock =>
    by_cases h : wrap32 (id - 1) ≥ 0 ∧ wrap32 (id - 1) < wrap32 (b.messages_.length : Int)
    · simp only [if_pos h]
    · simp only [if_neg h]

theorem send_prev_two_messages_board (b : BulletinBoard) (u : String) :
    (b.send_prev_two_messages u).board = b := by
  unfold send_prev_two_messages
  cases b.members_.find u with
  | none => rfl
  | some sock =>
    by_cases h₂ : wrap32 (b.messages_.length : Int) ≥ 2
    · simp only [if_pos h₂]
    · by_cases h₁ : wrap32 (b.messages_.length : Int) = 1
      · simp only [if_neg h₂, if_pos h₁]
      · simp only [if_neg h₂, if_neg h₁]

theorem group_post_messages (b : BulletinBoard) (u subject message t : String) :
    (b.group_post u subject message t).board.messages_ =
      if (b.group_post u subject message t).error = none then
        b.messages_ ++ [full_post (post_id b) u t subject message]
      else b.messages_ := by
  unfold group_post
  by_cases h : b.members_.count u = 0
  · simp only [if_pos h]
    simp
  · simp only [if_neg h, if_true]

theorem group_post_members (b : BulletinBoard) (u subject message t : String) :
    (b.group_post u subject message t).board.members_ = b.members_ := by
  unfold group_post
  by_cases h : b.members_.count u = 0
  · simp only [if_pos h]
  · simp only [if_neg h]

end BulletinBoard

theorem run_call_messages (b : BulletinBoard) (c : Call) :
    (run_call b c).board.messages_ = b.messages_ ++ stamped b.messages_.length (posts_of b [c]) := by
  cases c with
  | join u fd => simp [run_call, posts_of, stamped, group_join_messages]
  | post u subject message t =>
    simp only [run_call, posts_of, group_post_messages]
    by_cases h : (b.group_post u subject message t).error = none
    · simp only [if_pos h, stamped, post_id]
    · simp only [if_neg h, stamped, List.append_nil]
  | users u => simp [run_call, posts_of, stamped, group_users_board]
  | leave u => simp [run_call, posts_of, stamped, group_leave_messages]
  | message u id => simp [run_call, posts_of, stamped, group_message_board]
  | prev_two u => simp [run_call, posts_of, stamped, send_prev_two_messages_board]

theorem posts_of_cons (b : BulletinBoard) (c : Call) (rest : List Call) :
    posts_of b (c :: rest) = posts_of b [c] ++ posts_of (run_call b c).board rest := by
  cases c with
  | post u subject message t =>
    simp only [posts_of, run_call]
    by_cases h : (b.group_post u subject message t).error = none
    · simp only [if_pos h, List.cons_append, List.nil_append]
    · simp only [if_neg h, List.nil_append]
  | join u fd => simp [posts_of]
  | users u => simp [posts_of]
  | leave u => simp [posts_of]
  | message u id => simp [posts_of]
  | prev_two u => simp [posts_of]

theorem stamped_append (n : Nat) (ps qs : List Post) :
    stamped n (ps ++ qs) = stamped n ps ++ stamped (n + ps.length) qs := by
  induction ps generalizing n with
  | nil => simp [stamped]
  | cons p ps ih =>
    show stamped n (p :: (ps ++ qs)) = stamped n (p :: ps) ++ stamped (n + (ps.length + 1)) qs
    rw [stamped, stamped, ih, show n + 1 + ps.length = n + (ps.length + 1) by omega]
    rfl

theorem stamped_length (n : Nat) (ps : List Post) : (stamped n ps).length = ps.length := by
  induction ps generalizing n with
  | nil => simp [stamped]
  | cons p ps ih => simp [stamped, ih]

theorem stamped_getElem? (n : Nat) (ps : List Post) (k : Nat) :
    (stamped n ps)[k]? =
      ps[k]?.map (fun p =>
        full_post (wrap32 (wrap32 ((n + k : Nat) : Int) + 1)) p.author p.timestamp p.subject p.body) := by
  induction ps generalizing n k with
  | nil => simp [stamped]
  | cons p ps ih =>
    cases k with
    | zero => simp [stamped]
    | succ k =>
      simp only [stamped, List.getElem?_cons_succ, ih]
      rw [show n + 1 + k = n + (k + 1) by omega]

theorem run_calls_messages (b : BulletinBoard) (calls : List Call) :
    (run_calls b calls).messages_ =
      b.messages_ ++ stamped b.messages_.length (posts_of b calls) := by
  induction calls generalizing b with
  | nil => simp [run_calls, posts_of, stamped]
  | cons c rest ih =>
    rw [run_calls, ih, posts_of_cons, stamped_append, run_call_messages, List.length_append,
      stamped_length, List.append_assoc]

theorem full_post_eq_thumb_post (id : Int) (u t subject body : String) :
    full_post id u t subject body = thumb_post id u t subject ++ ", " ++ body := by
  unfold full_post thumb_post
  simp [String.append_assoc]

theorem run_call_find_of_ne_leave (b : BulletinBoard) (c : Call) (u : String) (fd : Int)
    (hu : b.members_.find u = some fd) (hc : c ≠ Call.leave u) :
    (run_call b c).board.members_.find u = some fd := by
  cases c with
  | join x fd' =>
    simp only [run_call, group_join]
    split
    · exact hu
    · rename_i hx
      have hxu : u ≠ x := by
        intro e
        subst e
        exact hx ((StrMap.count_pos_iff _ _).2 ⟨fd, hu⟩)
      simpa [StrMap.find_assign_ne _ _ _ _ hxu] using hu
  | post x subject message t => simpa [run_call, group_post_members] using hu
  | users x => simpa [run_call, group_users_board] using hu
  | leave x =>
    have hxu : u ≠ x := by
      intro e
      subst e
      exact hc rfl
    simp only [run_call, group_leave]
    split
    · exact hu
    · simpa [StrMap.find_erase_ne _ _ _ hxu] using hu
  | message x id => simpa [run_call, group_message_board] using hu
  | prev_two x => simpa [run_call, send_prev_two_messages_board] using hu

theorem run_calls_find_of_no_leave (b : BulletinBoard) (calls : List Call) (u : String) (fd : Int)
    (hu : b.members_.find u = some fd) (hc : ∀ c ∈ calls, c ≠ Call.leave u) :
    (run_calls b calls).members_.find u = some fd := by
  induction calls generalizing b with
  | nil => exact hu
  | cons c rest ih =>
    rw [run_calls]
    apply ih
    · exact run_call_find_of_ne_leave b c u fd hu (hc c (by simp))
    · intro x hx
      exact hc x (by simp [hx])

/-! ## The message log: ids and append-only growth (C1) -/

/-- Claim C1. After any sequence of calls on the empty board the log holds
exactly the posts that were accepted, in order, and the entry at position `k`
(counted from 1, as far as an `int` counts) is the text formatted with post id
`k`; and every call, on any board, leaves the old log as a prefix of the new one. -/
theorem log_ids_dense_and_append_only (calls : List Call) :
    (run_calls BulletinBoard.empty calls).messages_.length
        = (posts_of BulletinBoard.empty calls).length ∧
    (∀ k : Nat, k < (run_calls BulletinBoard.empty calls).messages_.length →
      k + 1 ≤ 2147483647 →
      ∃ p, (posts_of BulletinBoard.empty calls)[k]? = some p ∧
        (run_calls BulletinBoard.empty calls).messages_[k]? =
          some (full_post ((k : Int) + 1) p.author p.timestamp p.subject p.body)) ∧
    (∀ (b : BulletinBoard) (c : Call), b.messages_ <+: (run_call b c).board.messages_) := by
  refine ⟨?_, ?_, ?_⟩
  · simp [run_calls_messages, BulletinBoard.empty, stamped_length]
  · intro k hk hk'
    have hlen : k < (posts_of BulletinBoard.empty calls).length := by
      simpa [run_calls_messages, BulletinBoard.empty, stamped_length] using hk
    refine ⟨(posts_of BulletinBoard.empty calls)[k], List.getElem?_eq_getElem hlen, ?_⟩
    have hid : wrap32 (wrap32 (k : Int) + 1) = (k : Int) + 1 := by
      unfold wrap32
      omega
    rw [run_calls_messages]
    show ([] ++ stamped 0 (posts_of BulletinBoard.empty calls))[k]? = _
    rw [List.nil_append, stamped_getElem?, List.getElem?_eq_getElem hlen, Option.map_some',
      Nat.zero_add, hid]
  · intro b c
    rw [run_call_messages]
    exact List.prefix_append _ _


/-- An instance of claim C1: alice joins and posts twice, carl (no member) posts
in between; the log holds alice's posts under ids 1 and 2. -/
theorem log_ids_dense_witness :
    (run_calls BulletinBoard.empty
      [Call.join "alice" 4, Call.post "alice" "hi" "hello" "T1",
       Call.post "carl" "x" "y" "T2", Call.post "alice" "re" "bye" "T3"]).messages_
      = ["1, alice, T1, hi, hello", "2, alice, T3, re, bye"] ∧
    ∃ p, (posts_of BulletinBoard.empty
      [Call.join "alice" 4, Call.post "alice" "hi" "hello" "T1",
       Call.post "carl" "x" "y" "T2", Call.post "alice" "re" "bye" "T3"])[1]? = some p ∧
      (run_calls BulletinBoard.empty
        [Call.join "alice" 4, Call.post "alice" "hi" "hello" "T1",
         Call.post "carl" "x" "y" "T2", Call.post "alice" "re" "bye" "T3"]).messages_[1]? =
        some (full_post ((1 : Nat) + 1 : Int) p.author p.timestamp p.subject p.body) :=
  ⟨by decide,
   (log_ids_dense_and_append_only
      [Call.join "alice" 4, Call.post "alice" "hi" "hello" "T1",
       Call.post "carl" "x" "y" "T2", Call.post "alice" "re" "bye" "T3"]).2.1 1
      (by decide) (by decide)⟩

/-! ## `group_post` by a member (C2) -/

theorem group_post_of_member (b : BulletinBoard) (u subject body t : String)
    (hu : b.members_.count u > 0) :
    b.group_post u subject body t =
      { board := { b with messages_ :=
          b.messages_ ++ [full_post (post_id b) u t subject body] },
        sent := b.members_.map (fun pair => send_all pair.2 (thumb_post (post_id b) u t subject)),
        error := none } := by
  unfold group_post
  have h : ¬ b.members_.count u = 0 := by omega
  simp only [if_neg h]

theorem group_join_of_member (b : BulletinBoard) (u : String) (fd : Int)
    (hu : b.members_.count u > 0) :
    b.group_join u fd = { board := b, sent := [], error := some (already_member_error u) } := by
  unfold group_join
  simp only [if_pos hu]

theorem group_join_of_not_member (b : BulletinBoard) (u : String) (fd : Int)
    (hu : b.members_.count u = 0) :
    b.group_join u fd =
      { board := { b with members_ := b.members_.assign u fd }, sent := [], error := none } := by
  unfold group_join
  have h : ¬ b.members_.count u > 0 := by omega
  simp only [if_neg h]

/-- Claim C2. A post by a current member succeeds: it appends exactly the text
`id, u, t, subject, body` with `id` the length of the log before the call plus
one (the log fitting an `int`), leaves the member map as it was, and sends one
message per member entry, in map order, to that member's connection and to no
other, the poster's included; the message is the thumbnail `id, u, t, subject`,
which is the stored post without its trailing `, body`. -/
theorem group_post_by_member (b : BulletinBoard) (u subject body t : String)
    (hu : b.members_.count u > 0) (hn : b.messages_.length < 2147483647) :
    (b.group_post u subject body t).error = none ∧
    (b.group_post u subject body t).board.messages_ =
      b.messages_ ++ [full_post ((b.messages_.length : Int) + 1) u t subject body] ∧
    (b.group_post u subject body t).board.members_ = b.members_ ∧
    (b.group_post u subject body t).sent =
      b.members_.map (fun pair =>
        (pair.2, thumb_post ((b.messages_.length : Int) + 1) u t subject)) ∧
    (b.group_post u subject body t).sent.length = b.members_.length ∧
    (∃ fd, b.members_.find u = some fd ∧
      (fd, thumb_post ((b.messages_.length : Int) + 1) u t subject) ∈
        (b.group_post u subject body t).sent) ∧
    full_post ((b.messages_.length : Int) + 1) u t subject body =
      thumb_post ((b.messages_.length : Int) + 1) u t subject ++ ", " ++ body := by
  rw [group_post_of_member b u subject body t hu, post_id_of_lt b hn]
  refine ⟨rfl, rfl, rfl, rfl, ?_, ?_, full_post_eq_thumb_post _ _ _ _ _⟩
  · simp
  · obtain ⟨fd, hfd⟩ := (StrMap.count_pos_iff _ _).1 hu
    refine ⟨fd, hfd, ?_⟩
    have hmem := StrMap.mem_keys_of_find _ _ _ hfd
    exact List.mem_map.2 ⟨(u, fd), hmem, rfl⟩

/-- An instance of claim C2: bob posts on a board of alice and bob that holds
one message. -/
theorem group_post_by_member_witness :
    (BulletinBoard.mk ["1, alice, T1, hi, hello"] [("alice", 4), ("bob", 5)]).group_post
        "bob" "re" "bye" "T2" =
      { board := { messages_ := ["1, alice, T1, hi, hello", "2, bob, T2, re, bye"],
                   members_ := [("alice", 4), ("bob", 5)] },
        sent := [(4, "2, bob, T2, re"), (5, "2, bob, T2, re")],
        error := none } ∧
    ((BulletinBoard.mk ["1, alice, T1, hi, hello"] [("alice", 4), ("bob", 5)]).group_post
        "bob" "re" "bye" "T2").sent =
      (BulletinBoard.mk ["1, alice, T1, hi, hello"] [("alice", 4), ("bob", 5)]).members_.map
        (fun pair => (pair.2, thumb_post (((BulletinBoard.mk ["1, alice, T1, hi, hello"]
          [("alice", 4), ("bob", 5)]).messages_.length : Int) + 1) "bob" "T2" "re")) :=
  ⟨by decide,
   (group_post_by_member (BulletinBoard.mk ["1, alice, T1, hi, hello"] [("alice", 4), ("bob", 5)])
      "bob" "re" "bye" "T2" (by decide) (by decide)).2.2.2.1⟩

/-! ## `group_join` (C3) -/

/-- Claim C3. `group_join(u, c)` succeeds exactly when `u` is not a member, and
then sends nothing, keeps the log and makes the member map the old one plus
`u` mapped to `c`; on a member it throws the already-a-member error and leaves
the board as it was. After a successful `group_join(u, c1)` and any calls that
are not `group_leave(u)`, `group_join(u, c2)` throws that error, the board is
unchanged by it and `u` is still mapped to `c1`. -/
theorem group_join_succeeds_once (b : BulletinBoard) (u : String) (c1 c2 : Int)
    (calls : List Call) :
    ((b.group_join u c1).error = none ↔ b.members_.count u = 0) ∧
    (b.members_.count u = 0 →
      (b.group_join u c1).sent = [] ∧
      (b.group_join u c1).board.messages_ = b.messages_ ∧
      List.Perm (b.group_join u c1).board.members_ ((u, c1) :: b.members_) ∧
      (b.group_join u c1).board.members_.find u = some c1 ∧
      ∀ x, x ≠ u → (b.group_join u c1).board.members_.find x = b.members_.find x) ∧
    (b.members_.count u > 0 →
      b.group_join u c2 =
        { board := b, sent := [], error := some (already_member_error u) }) ∧
    (b.members_.count u = 0 → (∀ c ∈ calls, c ≠ Call.leave u) →
      (run_calls (b.group_join u c1).board calls).group_join u c2 =
        { board := run_calls (b.group_join u c1).board calls, sent := [],
          error := some (already_member_error u) } ∧
      (run_calls (b.group_join u c1).board calls).members_.find u = some c1) := by
  refine ⟨?_, ?_, ?_, ?_⟩
  · by_cases h : b.members_.count u = 0
    · simp [group_join_of_not_member b u c1 h, h]
    · have h' : b.members_.count u > 0 := by omega
      simp [group_join_of_member b u c1 h', h]
  · intro h
    rw [group_join_of_not_member b u c1 h]
    refine ⟨rfl, rfl, ?_, ?_, ?_⟩
    · exact StrMap.assign_perm _ _ _ ((StrMap.count_eq_zero_iff _ _).1 h)
    · exact StrMap.find_assign_self _ _ _
    · intro x hx
      exact StrMap.find_assign_ne _ _ _ _ hx
  · intro h
    exact group_join_of_member b u c2 h
  · intro h hcalls
    have hfind : (b.group_join u c1).board.members_.find u = some c1 := by
      rw [group_join_of_not_member b u c1 h]
      exact StrMap.find_assign_self _ _ _
    have hlater := run_calls_find_of_no_leave _ calls u c1 hfind hcalls
    refine ⟨?_, hlater⟩
    exact group_join_of_member _ u c2 ((StrMap.count_pos_iff _ _).2 ⟨c1, hlater⟩)

/-- An instance of claim C3: alice joins the empty board on connection 4; after
a post and bob's joining and leaving, her second join on connection 9 throws. -/
theorem group_join_succeeds_once_witness :
    (run_calls (BulletinBoard.empty.group_join "alice" 4).board
        [Call.post "alice" "hi" "hello" "T1", Call.join "bob" 5, Call.leave "bob"]).group_join
        "alice" 9 =
      { board := { messages_ := ["1, alice, T1, hi, hello"], members_ := [("alice", 4)] },
        sent := [],
        error := some "user alice is already a member of this group." } ∧
    (run_calls (BulletinBoard.empty.group_join "alice" 4).board
        [Call.post "alice" "hi" "hello" "T1", Call.join "bob" 5, Call.leave "bob"]).members_.find
        "alice" = some 4 :=
  ⟨by decide,
   ((group_join_succeeds_once BulletinBoard.empty "alice" 4 9
      [Call.post "alice" "hi" "hello" "T1", Call.join "bob" 5, Call.leave "bob"]).2.2.2
      (by decide) (by decide)).2⟩

/-! ## `group_message`: fetching a post, and the bounds notice (C4, C5, C6) -/

theorem group_message_of_member (b : BulletinBoard) (u : String) (id fd : Int)
    (hu : b.members_.find u = some fd) :
    b.group_message u id =
      if wrap32 (id - 1) ≥ 0 ∧ wrap32 (id - 1) < wrap32 (b.messages_.length : Int) then
        { board := b, sent := [send_all fd (b.messages_.getD (wrap32 (id - 1)).toNat "")],
          error := none }
      else
        { board := b, sent := [send_all fd (not_found_notice b.messages_.length)],
          error := none } := by
  unfold group_message
  rw [hu]

theorem group_message_out_of_range (b : BulletinBoard) (u : String) (id fd : Int)
    (hu : b.members_.find u = some fd) (hid : isInt32 id)
    (hout : ¬ (1 ≤ id ∧ id ≤ (b.messages_.length : Int))) :
    b.group_message u id =
      { board := b, sent := [(fd, not_found_notice b.messages_.length)], error := none } := by
  rw [group_message_of_member b u id fd hu]
  have hc : ¬ (wrap32 (id - 1) ≥ 0 ∧ wrap32 (id - 1) < wrap32 (b.messages_.length : Int)) := by
    unfold isInt32 at hid
    unfold wrap32
    omega
  rw [if_neg hc]
  rfl

theorem group_message_in_range (b : BulletinBoard) (u : String) (id fd : Int)
    (hu : b.members_.find u = some fd) (hlen : b.messages_.length ≤ 2147483647)
    (hin : 1 ≤ id ∧ id ≤ (b.messages_.length : Int)) :
    b.group_message u id =
      { board := b, sent := [(fd, b.messages_.getD (id - 1).toNat "")], error := none } := by
  rw [group_message_of_member b u id fd hu]
  have hw : wrap32 (id - 1) = id - 1 := by
    unfold wrap32
    omega
  have hc : wrap32 (id - 1) ≥ 0 ∧ wrap32 (id - 1) < wrap32 (b.messages_.length : Int) := by
    unfold wrap32
    omega
  rw [if_pos hc, hw]
  rfl

/-- Claim C4. A post made by a member `u` is assigned the id `k` that is the
length of the log plus one; after any further calls (the log still fitting an
`int`), `group_message(v, k)` by any current member `v` sends to the connection
of `v`, and nowhere else, exactly the full text `k, u, t, subject, body`, and
leaves the board as it was. -/
theorem post_then_fetch (b : BulletinBoard) (u subject body t : String) (calls : List Call)
    (v : String) (fd : Int)
    (hu : b.members_.count u > 0) (hn : b.messages_.length < 2147483647)
    (hv : (run_calls (b.group_post u subject body t).board calls).members_.find v = some fd)
    (hlen : (run_calls (b.group_post u subject body t).board calls).messages_.length
      ≤ 2147483647) :
    post_id b = (b.messages_.length : Int) + 1 ∧
    (run_calls (b.group_post u subject body t).board calls).group_message v (post_id b) =
      { board := run_calls (b.group_post u subject body t).board calls,
        sent := [(fd, full_post (post_id b) u t subject body)],
        error := none } := by
  have hid := post_id_of_lt b hn
  refine ⟨hid, ?_⟩
  have hmsgs := run_calls_messages (b.group_post u subject body t).board calls
  have hpost : (b.group_post u subject body t).board.messages_ =
      b.messages_ ++ [full_post (post_id b) u t subject body] := by
    rw [group_post_of_member b u subject body t hu]
  rw [hpost] at hmsgs
  have hget : (run_calls (b.group_post u subject body t).board calls).messages_.getD
      (post_id b - 1).toNat "" = full_post (post_id b) u t subject body := by
    rw [hmsgs, hid]
    have : ((b.messages_.length : Int) + 1 - 1).toNat = b.messages_.length := by omega
    rw [this, List.append_assoc, List.getD_eq_getElem?_getD, List.getElem?_append_right (le_refl _)]
    simp
  have hin : 1 ≤ post_id b ∧
      post_id b ≤ ((run_calls (b.group_post u subject body t).board calls).messages_.length : Int) := by
    rw [hmsgs, hid]
    simp only [List.length_append, List.length_cons, List.length_nil]
    omega
  rw [group_message_in_range _ v (post_id b) fd hv hlen hin, hget]

/-- An instance of claim C4: alice posts on a board that holds one message; bob
joins, posts and alice leaves; bob fetches alice's post by its id 2. -/
theorem post_then_fetch_witness :
    (run_calls ((BulletinBoard.mk ["1, zoe, T0, a, b"] [("alice", 4)]).group_post
        "alice" "hi" "hello" "T1").board
        [Call.join "bob" 5, Call.post "bob" "re" "bye" "T2", Call.leave "alice"]).group_message
        "bob" 2 =
      { board := { messages_ := ["1, zoe, T0, a, b", "2, alice, T1, hi, hello",
                                   "3, bob, T2, re, bye"],
                   members_ := [("bob", 5)] },
        sent := [(5, "2, alice, T1, hi, hello")],
        error := none } ∧
    post_id (BulletinBoard.mk ["1, zoe, T0, a, b"] [("alice", 4)]) =
      ((BulletinBoard.mk ["1, zoe, T0, a, b"] [("alice", 4)]).messages_.length : Int) + 1 :=
  ⟨by decide,
   (post_then_fetch (BulletinBoard.mk ["1, zoe, T0, a, b"] [("alice", 4)])
      "alice" "hi" "hello" "T1"
      [Call.join "bob" 5, Call.post "bob" "re" "bye" "T2", Call.leave "alice"] "bob" 5
      (by decide) (by decide) (by decide) (by decide)).1⟩

theorem not_found_notice_data (n : Nat) :
    (not_found_notice n).data =
      "message not found, should be in the range ".data ++
        (("1 - " ++ toString n ++ ", inclusive.").data ++ "\n".data) := by
  unfold not_found_notice
  simp only [String.data_append]
  simp

/-- Claim C5, as the code has it. For a board with `n` stored messages, a
member `u` and an `int` message id outside `[1, n]`, `group_message` sends `u`
the text `message not found, should be in the range 1 - n, inclusive.` and a
newline: the range is stated as `1 - n, inclusive.`, with a dash. -/
theorem bounds_notice_states_range (b : BulletinBoard) (u : String) (id fd : Int)
    (hu : b.members_.find u = some fd) (hid : isInt32 id)
    (hout : ¬ (1 ≤ id ∧ id ≤ (b.messages_.length : Int))) :
    (b.group_message u id).sent =
      [(fd, "message not found, should be in the range 1 - " ++
          toString b.messages_.length ++ ", inclusive.\n")] ∧
    ("1 - " ++ toString b.messages_.length ++ ", inclusive.").data <:+:
      ("message not found, should be in the range 1 - " ++
          toString b.messages_.length ++ ", inclusive.\n").data := by
  rw [group_message_out_of_range b u id fd hu hid hout]
  refine ⟨rfl, ?_⟩
  have h := not_found_notice_data b.messages_.length
  unfold not_found_notice at h
  rw [h]
  exact ⟨"message not found, should be in the range ".data, "\n".data,
    List.append_assoc _ _ _⟩

/-- An instance of claim C5 as amended: three posts stored, id 5 requested; the
reply contains `1 - 3, inclusive.`. -/
theorem bounds_notice_states_range_witness :
    ((run_calls BulletinBoard.empty
        [Call.join "alice" 4, Call.post "alice" "s1" "b1" "T1",
         Call.post "alice" "s2" "b2" "T2", Call.post "alice" "s3" "b3" "T3"]).group_message
        "alice" 5).sent =
      [(4, "message not found, should be in the range 1 - 3, inclusive.\n")] ∧
    "1 - 3, inclusive.".data <:+:
      "message not found, should be in the range 1 - 3, inclusive.\n".data :=
  bounds_notice_states_range
    (run_calls BulletinBoard.empty
      [Call.join "alice" 4, Call.post "alice" "s1" "b1" "T1",
       Call.post "alice" "s2" "b2" "T2", Call.post "alice" "s3" "b3" "T3"])
    "alice" 5 4 (by decide) (by decide) (by decide)

/-- Claim C5 fails as stated: with three posts stored and id 5 requested, the
one reply is `message not found, should be in the range 1 - 3, inclusive.`,
which does not contain `1 to 3, inclusive.`. -/
theorem bounds_notice_has_no_to :
    ((run_calls BulletinBoard.empty
        [Call.join "alice" 4, Call.post "alice" "s1" "b1" "T1",
         Call.post "alice" "s2" "b2" "T2", Call.post "alice" "s3" "b3" "T3"]).group_message
        "alice" 5).sent =
      [(4, "message not found, should be in the range 1 - 3, inclusive.\n")] ∧
    ¬ ∃ reply ∈ ((run_calls BulletinBoard.empty
        [Call.join "alice" 4, Call.post "alice" "s1" "b1" "T1",
         Call.post "alice" "s2" "b2" "T2", Call.post "alice" "s3" "b3" "T3"]).group_message
        "alice" 5).sent, "1 to 3, inclusive.".data <:+: reply.2.data := by
  decide

/-- Claim C6. For a board with `n` stored messages, a member `u` and any `int`
message id outside `[1, n]` (zero, negative, the least `int` included),
`group_message` leaves the board as it was, throws nothing and sends exactly
one message, to the connection of `u`: the bounds notice, which carries the
count `n` and is the same whatever the `n` log entries are. -/
theorem group_message_out_of_range_frame (b : BulletinBoard) (u : String) (id fd : Int)
    (hu : b.members_.find u = some fd) (hid : isInt32 id)
    (hout : ¬ (1 ≤ id ∧ id ≤ (b.messages_.length : Int))) :
    (b.group_message u id).board = b ∧
    (b.group_message u id).error = none ∧
    (b.group_message u id).sent = [(fd, not_found_notice b.messages_.length)] ∧
    (toString b.messages_.length).data <:+: (not_found_notice b.messages_.length).data ∧
    (∀ log : List String, log.length = b.messages_.length →
      (BulletinBoard.group_message { b with messages_ := log } u id).sent =
        (b.group_message u id).sent) := by
  rw [group_message_out_of_range b u id fd hu hid hout]
  refine ⟨rfl, rfl, rfl, ?_, ?_⟩
  · rw [not_found_notice_data]
    refine ⟨"message not found, should be in the range ".data ++ "1 - ".data,
      ", inclusive.".data ++ "\n".data, ?_⟩
    simp only [String.data_append, List.append_assoc]
  · intro log hlog
    have hout' : ¬ (1 ≤ id ∧
        id ≤ ((BulletinBoard.mk log b.members_).messages_.length : Int)) := by
      simpa [hlog] using hout
    rw [group_message_out_of_range { b with messages_ := log } u id fd hu hid hout']
    simp [hlog]

/-- An instance of claim C6: the least `int` as message id, where
`message_id - 1` wraps around, on a board of two messages. -/
theorem group_message_out_of_range_frame_witness :
    (BulletinBoard.mk ["1, alice, T1, s1, b1", "2, alice, T2, s2, b2"]
        [("alice", 4), ("bob", 5)]).group_message "bob" (-2147483648) =
      { board := BulletinBoard.mk ["1, alice, T1, s1, b1", "2, alice, T2, s2, b2"]
          [("alice", 4), ("bob", 5)],
        sent := [(5, "message not found, should be in the range 1 - 2, inclusive.\n")],
        error := none } ∧
    ((BulletinBoard.mk ["1, alice, T1, s1, b1", "2, alice, T2, s2, b2"]
        [("alice", 4), ("bob", 5)]).group_message "bob" (-2147483648)).board =
      BulletinBoard.mk ["1, alice, T1, s1, b1", "2, alice, T2, s2, b2"]
        [("alice", 4), ("bob", 5)] :=
  ⟨by decide,
   (group_message_out_of_range_frame
      (BulletinBoard.mk ["1, alice, T1, s1, b1", "2, alice, T2, s2, b2"]
        [("alice", 4), ("bob", 5)]) "bob" (-2147483648) 5
      (by decide) (by decide) (by decide)).1⟩

/-! ## `send_prev_two_messages` (C7) -/

theorem send_prev_two_messages_of_member (b : BulletinBoard) (u : String) (fd : Int)
    (hu : b.members_.find u = some fd) (hlen : b.messages_.length ≤ 2147483647) :
    b.send_prev_two_messages u =
      if (b.messages_.length : Int) ≥ 2 then
        { board := b,
          sent := [(fd, b.messages_.getD (b.messages_.length - 2) "" ++ "\n"),
                   (fd, b.messages_.getD (b.messages_.length - 1) "" ++ "\n")],
          error := none }
      else if (b.messages_.length : Int) = 1 then
        { board := b, sent := [(fd, b.messages_.getD 0 "" ++ "\n")], error := none }
      else
        { board := b, sent := [], error := none } := by
  unfold send_prev_two_messages
  rw [hu]
  have hw : wrap32 (b.messages_.length : Int) = b.messages_.length := by
    unfold wrap32
    omega
  simp only [hw]
  have h2 : ((b.messages_.length : Int) - 2).toNat = b.messages_.length - 2 := by omega
  have h1 : ((b.messages_.length : Int) - 1).toNat = b.messages_.length - 1 := by omega
  rw [h2, h1]
  rfl

/-- Claim C7. `send_prev_two_messages(u)` never changes the board and never
throws. For a non-member it sends nothing. For a member (the log fitting an
`int`) it sends `min(n, 2)` messages, all to the connection of `u`: nothing for
an empty log, the one entry for `n = 1`, and for `n >= 2` the entries at
positions `n-1` and `n` in that order, each followed by a newline. After posts
1, 2, 3 a member who has just joined is sent posts 2 and 3 and not post 1. -/
theorem send_prev_two_messages_sends_last_two (b : BulletinBoard) (u : String) :
    (b.send_prev_two_messages u).board = b ∧
    (b.send_prev_two_messages u).error = none ∧
    (b.members_.find u = none → (b.send_prev_two_messages u).sent = []) ∧
    (∀ fd, b.members_.find u = some fd → b.messages_.length ≤ 2147483647 →
      (b.send_prev_two_messages u).sent.length = min b.messages_.length 2 ∧
      (∀ s ∈ (b.send_prev_two_messages u).sent, s.1 = fd) ∧
      (b.messages_.length = 0 → (b.send_prev_two_messages u).sent = []) ∧
      (b.messages_.length = 1 →
        ∃ m, b.messages_[0]? = some m ∧ (b.send_prev_two_messages u).sent = [(fd, m ++ "\n")]) ∧
      (b.messages_.length ≥ 2 →
        ∃ m₁ m₂, b.messages_[b.messages_.length - 2]? = some m₁ ∧
          b.messages_[b.messages_.length - 1]? = some m₂ ∧
          (b.send_prev_two_messages u).sent = [(fd, m₁ ++ "\n"), (fd, m₂ ++ "\n")])) ∧
    ((run_calls BulletinBoard.empty
        [Call.join "alice" 4, Call.post "alice" "s1" "b1" "T1",
         Call.post "alice" "s2" "b2" "T2", Call.post "alice" "s3" "b3" "T3",
         Call.join "bob" 5]).send_prev_two_messages "bob").sent =
      [(5, "2, alice, T2, s2, b2\n"), (5, "3, alice, T3, s3, b3\n")] := by
  refine ⟨send_prev_two_messages_board b u, ?_, ?_, ?_, by decide⟩
  · unfold send_prev_two_messages
    cases b.members_.find u with
    | none => rfl
    | some sock =>
      by_cases h₂ : wrap32 (b.messages_.length : Int) ≥ 2
      · simp only [if_pos h₂]
      · by_cases h₁ : wrap32 (b.messages_.length : Int) = 1
        · simp only [if_neg h₂, if_pos h₁]
        · simp only [if_neg h₂, if_neg h₁]
  · intro hu
    unfold send_prev_two_messages
    rw [hu]
  · intro fd hu hlen
    rw [send_prev_two_messages_of_member b u fd hu hlen]
    by_cases h₂ : (b.messages_.length : Int) ≥ 2
    · have hn : 2 ≤ b.messages_.length := by omega
      rw [if_pos h₂]
      refine ⟨by simp [hn], by simp, by omega, by omega, ?_⟩
      intro _
      have i₁ : b.messages_.length - 2 < b.messages_.length := by omega
      have i₂ : b.messages_.length - 1 < b.messages_.length := by omega
      refine ⟨b.messages_[b.messages_.length - 2], b.messages_[b.messages_.length - 1],
        List.getElem?_eq_getElem i₁, List.getElem?_eq_getElem i₂, ?_⟩
      rw [List.getD_eq_getElem?_getD, List.getD_eq_getElem?_getD, List.getElem?_eq_getElem i₁,
        List.getElem?_eq_getElem i₂]
      rfl
    · rw [if_neg h₂]
      by_cases h₁ : (b.messages_.length : Int) = 1
      · have hn : b.messages_.length = 1 := by omega
        rw [if_pos h₁]
        refine ⟨by simp [hn], by simp, by omega, ?_, by omega⟩
        intro _
        have i₀ : 0 < b.messages_.length := by omega
        refine ⟨b.messages_[0], List.getElem?_eq_getElem i₀, ?_⟩
        rw [List.getD_eq_getElem?_getD, List.getElem?_eq_getElem i₀]
        rfl
      · have hn : b.messages_.length = 0 := by omega
        rw [if_neg h₁]
        refine ⟨by simp [hn], by simp, ?_, by omega, by omega⟩
        intro _
        rfl

/-- An instance of claim C7: bob, just joined, on a board holding three posts. -/
theorem send_prev_two_messages_sends_last_two_witness :
    ((BulletinBoard.mk ["1, alice, T1, s1, b1", "2, alice, T2, s2, b2", "3, alice, T3, s3, b3"]
        [("alice", 4), ("bob", 5)]).send_prev_two_messages "bob").sent.length =
      min (BulletinBoard.mk ["1, alice, T1, s1, b1", "2, alice, T2, s2, b2",
        "3, alice, T3, s3, b3"] [("alice", 4), ("bob", 5)]).messages_.length 2 ∧
    ((BulletinBoard.mk ["1, alice, T1, s1, b1", "2, alice, T2, s2, b2", "3, alice, T3, s3, b3"]
        [("alice", 4), ("bob", 5)]).send_prev_two_messages "bob").sent =
      [(5, "2, alice, T2, s2, b2\n"), (5, "3, alice, T3, s3, b3\n")] :=
  ⟨((send_prev_two_messages_sends_last_two
      (BulletinBoard.mk ["1, alice, T1, s1, b1", "2, alice, T2, s2, b2", "3, alice, T3, s3, b3"]
        [("alice", 4), ("bob", 5)]) "bob").2.2.2.1 5 (by decide) (by decide)).1,
   by decide⟩

/-! ## `%groupusers` and the empty username (C8) -/

theorem group_users_of_target (b : BulletinBoard) (u : String) (hu : u ≠ "") :
    b.group_users u =
      { board := b,
        sent := match b.members_.find u with
          | some fd => [(fd, "users: " ++ user_list b.members_.keys ++ " \n")]
          | none => [],
        error := none } := by
  unfold group_users
  by_cases h₁ : b.members_.isEmpty = true
  · have hnil : b.members_ = [] := List.isEmpty_iff.1 h₁
    simp only [if_pos h₁]
    rw [hnil]
    rfl
  · simp only [if_neg h₁, if_neg hu]
    cases b.members_.find u <;> rfl

/-- Claim C8 fails on the code for the username `""`, which the handshake
accepts: a client that answers the prompt with blanks is bound to `""`, and
its `%groupusers` request on a group it has not joined sends the user list to
every member of the group (the claim: nothing is sent); once it has joined, the
list goes to every member and not to its own connection only. -/
theorem list_users_with_empty_username_broadcasts :
    handshake
        [("default", BulletinBoard.mk [] [("alice", 4), ("bob", 5)]),
         ("group1", BulletinBoard.empty)] 9 [" \n"] =
      ([(9, "Enter a username: \n")], Handshake.active "") ∧
    dispatch
        [("default", BulletinBoard.mk [] [("alice", 4), ("bob", 5)]),
         ("group1", BulletinBoard.empty)] "" 9 "T"
        "%groupusers" (Request.mk (some "%groupusers") (some "default") none none none) =
      { boards := [("default", BulletinBoard.mk [] [("alice", 4), ("bob", 5)]),
                   ("group1", BulletinBoard.empty)],
        sent := [(4, "users: alice, bob \n"), (5, "users: alice, bob \n")],
        status := Status.Active } ∧
    dispatch
        [("default", BulletinBoard.mk [] [("", 9), ("alice", 4), ("bob", 5)]),
         ("group1", BulletinBoard.empty)] "" 9 "T"
        "%groupusers" (Request.mk (some "%groupusers") (some "default") none none none) =
      { boards := [("default", BulletinBoard.mk [] [("", 9), ("alice", 4), ("bob", 5)]),
                   ("group1", BulletinBoard.empty)],
        sent := [(9, "users: , alice, bob \n"), (4, "users: , alice, bob \n"),
                 (5, "users: , alice, bob \n")],
        status := Status.Active } := by
  decide

/-! ## `group_leave` (C9) -/

theorem group_leave_of_not_member (b : BulletinBoard) (u : String)
    (hu : b.members_.find u = none) :
    b.group_leave u = { board := b, sent := [], error := some (not_member_error u) } := by
  unfold group_leave
  rw [hu]

theorem group_leave_of_member (b : BulletinBoard) (u : String) (fd : Int)
    (hu : b.members_.find u = some fd) :
    b.group_leave u =
      { board := { b with members_ := b.members_.erase u }, sent := [], error := none } := by
  unfold group_leave
  rw [hu]

theorem has_member_eq_false_iff (b : BulletinBoard) (u : String) :
    b.has_member u = false ↔ b.members_.find u = none := by
  unfold has_member
  rw [← StrMap.count_eq_zero_iff]
  simp

/-- Claim C9. `group_leave(u)` on a non-member throws the not-a-member error and
leaves the board as it was. On a member it throws nothing, sends nothing, keeps
the log, and removes exactly the entry of `u` from the member map: `u` is no
member afterwards and every other user keeps its connection handle. -/
theorem group_leave_removes_exactly_the_member (b : BulletinBoard) (u : String) :
    (b.members_.find u = none →
      b.group_leave u = { board := b, sent := [], error := some (not_member_error u) }) ∧
    (∀ fd, b.members_.find u = some fd → b.members_.WF →
      (b.group_leave u).error = none ∧
      (b.group_leave u).sent = [] ∧
      (b.group_leave u).board.messages_ = b.messages_ ∧
      (b.group_leave u).board.members_.find u = none ∧
      (b.group_leave u).board.has_member u = false ∧
      (∀ x, x ≠ u → (b.group_leave u).board.members_.find x = b.members_.find x) ∧
      List.Perm ((u, fd) :: (b.group_leave u).board.members_) b.members_ ∧
      (b.group_leave u).board.members_.length + 1 = b.members_.length ∧
      (b.group_leave u).board.members_.WF) := by
  refine ⟨group_leave_of_not_member b u, ?_⟩
  intro fd hu hwf
  rw [group_leave_of_member b u fd hu]
  have hperm := StrMap.erase_perm b.members_ u fd hu
  refine ⟨rfl, rfl, rfl, StrMap.find_erase_self _ _ hwf, ?_, ?_, hperm, ?_,
    StrMap.WF_erase _ _ hwf⟩
  · exact (has_member_eq_false_iff _ _).2 (StrMap.find_erase_self _ _ hwf)
  · intro x hx
    exact StrMap.find_erase_ne _ _ _ hx
  · have := hperm.length_eq
    simpa using this

/-- An instance of claim C9: bob leaves a board of alice, bob and carl. -/
theorem group_leave_removes_exactly_the_member_witness :
    (BulletinBoard.mk ["1, alice, T1, s1, b1"]
        [("alice", 4), ("bob", 5), ("carl", 6)]).group_leave "bob" =
      { board := BulletinBoard.mk ["1, alice, T1, s1, b1"] [("alice", 4), ("carl", 6)],
        sent := [], error := none } ∧
    ((BulletinBoard.mk ["1, alice, T1, s1, b1"]
        [("alice", 4), ("bob", 5), ("carl", 6)]).group_leave "bob").board.has_member "bob"
      = false ∧
    (BulletinBoard.mk ["1, alice, T1, s1, b1"] [("alice", 4)]).group_leave "bob" =
      { board := BulletinBoard.mk ["1, alice, T1, s1, b1"] [("alice", 4)],
        sent := [], error := some (not_member_error "bob") } :=
  ⟨by decide,
   ((group_leave_removes_exactly_the_member
      (BulletinBoard.mk ["1, alice, T1, s1, b1"] [("alice", 4), ("bob", 5), ("carl", 6)])
      "bob").2 5 (by decide) (by decide)).2.2.2.2.1,
   (group_leave_removes_exactly_the_member
      (BulletinBoard.mk ["1, alice, T1, s1, b1"] [("alice", 4)]) "bob").1 (by decide)⟩

/-! ## `%exit` (C10) -/

theorem dispatch_exit (boards : Boards) (u : String) (fd : Int) (t : String) (req : Request) :
    dispatch boards u fd t "%exit" req =
      { boards := (exit_all boards u).1, sent := (exit_all boards u).2,
        status := Status.Closed } := by
  rfl

theorem group_leave_sent (b : BulletinBoard) (u : String) : (b.group_leave u).sent = [] := by
  unfold group_leave
  cases b.members_.find u <;> rfl

theorem group_leave_find_self (b : BulletinBoard) (u : String) (hwf : b.members_.WF) :
    (b.group_leave u).board.members_.find u = none := by
  cases h : b.members_.find u with
  | none =>
    rw [group_leave_of_not_member b u h]
    exact h
  | some fd =>
    rw [group_leave_of_member b u fd h]
    exact StrMap.find_erase_self _ _ hwf

theorem group_leave_find_ne (b : BulletinBoard) (u x : String) (hx : x ≠ u) :
    (b.group_leave u).board.members_.find x = b.members_.find x := by
  cases h : b.members_.find u with
  | none => rw [group_leave_of_not_member b u h]
  | some fd =>
    rw [group_leave_of_member b u fd h]
    exact StrMap.find_erase_ne _ _ _ hx

theorem group_leave_WF (b : BulletinBoard) (u : String) (hwf : b.members_.WF) :
    (b.group_leave u).board.members_.WF := by
  cases h : b.members_.find u with
  | none =>
    rw [group_leave_of_not_member b u h]
    exact hwf
  | some fd =>
    rw [group_leave_of_member b u fd h]
    exact StrMap.WF_erase _ _ hwf

theorem run_call_WF (b : BulletinBoard) (c : Call) (hwf : b.members_.WF) :
    (run_call b c).board.members_.WF := by
  cases c with
  | join u fd =>
    simp only [run_call]
    by_cases h : b.members_.count u > 0
    · rw [group_join_of_member b u fd h]
      exact hwf
    · rw [group_join_of_not_member b u fd (by omega)]
      exact StrMap.WF_assign _ _ _ hwf
  | post u subject message t => simpa [run_call, group_post_members] using hwf
  | users u => simpa [run_call, group_users_board] using hwf
  | leave u => exact group_leave_WF b u hwf
  | message u id => simpa [run_call, group_message_board] using hwf
  | prev_two u => simpa [run_call, send_prev_two_messages_board] using hwf

theorem run_calls_WF (b : BulletinBoard) (calls : List Call) (hwf : b.members_.WF) :
    (run_calls b calls).members_.WF := by
  induction calls generalizing b with
  | nil => exact hwf
  | cons c rest ih => exact ih _ (run_call_WF b c hwf)

theorem exit_all_sent (boards : Boards) (u : String) : (exit_all boards u).2 = [] := by
  unfold exit_all
  simp [group_leave_sent]

/-- Claim C10. The `%exit` command, whatever boards the user had joined, closes
the session and sends no reply; afterwards the user is a member of no board,
and every board keeps its name, its log and every other member with its
connection handle. -/
theorem exit_leaves_every_board (boards : Boards) (u : String) (fd : Int) (t : String)
    (req : Request) (hwf : ∀ p ∈ boards, p.2.members_.WF) :
    (dispatch boards u fd t "%exit" req).status = Status.Closed ∧
    (dispatch boards u fd t "%exit" req).sent = [] ∧
    (dispatch boards u fd t "%exit" req).boards.keys = boards.keys ∧
    (∀ p ∈ (dispatch boards u fd t "%exit" req).boards, p.2.has_member u = false) ∧
    username_exists_anywhere (dispatch boards u fd t "%exit" req).boards u = false ∧
    (∀ (i : Nat) (g : String) (b : BulletinBoard), boards[i]? = some (g, b) →
      ∃ b', (dispatch boards u fd t "%exit" req).boards[i]? = some (g, b') ∧
        b'.messages_ = b.messages_ ∧
        ∀ x, x ≠ u → b'.members_.find x = b.members_.find x) := by
  rw [dispatch_exit]
  have hmem : ∀ p ∈ (exit_all boards u).1, p.2.has_member u = false := by
    intro p hp
    unfold exit_all at hp
    obtain ⟨q, hq, rfl⟩ := List.mem_map.1 hp
    exact (has_member_eq_false_iff _ _).2 (group_leave_find_self q.2 u (hwf q hq))
  refine ⟨rfl, exit_all_sent boards u, ?_, hmem, ?_, ?_⟩
  · unfold exit_all StrMap.keys
    simp [Function.comp_def]
  · unfold username_exists_anywhere
    rw [List.any_eq_false]
    intro p hp
    simp [hmem p hp]
  · intro i g b hi
    refine ⟨(b.group_leave u).board, ?_, group_leave_messages b u, ?_⟩
    · unfold exit_all
      simp [List.getElem?_map, hi]
    · intro x hx
      exact group_leave_find_ne b u x hx

/-- An instance of claim C10: bob, a member of two of three boards, exits. -/
theorem exit_leaves_every_board_witness :
    dispatch
        [("default", BulletinBoard.mk ["1, alice, T1, s1, b1"] [("alice", 4), ("bob", 5)]),
         ("group1", BulletinBoard.mk [] [("bob", 5)]),
         ("group2", BulletinBoard.mk [] [("carl", 6)])] "bob" 5 "T"
        "%exit" (Request.mk (some "%exit") none none none none) =
      { boards :=
          [("default", BulletinBoard.mk ["1, alice, T1, s1, b1"] [("alice", 4)]),
           ("group1", BulletinBoard.mk [] []),
           ("group2", BulletinBoard.mk [] [("carl", 6)])],
        sent := [], status := Status.Closed } ∧
    username_exists_anywhere
      (dispatch
        [("default", BulletinBoard.mk ["1, alice, T1, s1, b1"] [("alice", 4), ("bob", 5)]),
         ("group1", BulletinBoard.mk [] [("bob", 5)]),
         ("group2", BulletinBoard.mk [] [("carl", 6)])] "bob" 5 "T"
        "%exit" (Request.mk (some "%exit") none none none none)).boards "bob" = false :=
  ⟨by decide,
   (exit_leaves_every_board
      [("default", BulletinBoard.mk ["1, alice, T1, s1, b1"] [("alice", 4), ("bob", 5)]),
       ("group1", BulletinBoard.mk [] [("bob", 5)]),
       ("group2", BulletinBoard.mk [] [("carl", 6)])] "bob" 5 "T"
      (Request.mk (some "%exit") none none none none) (by decide)).2.2.2.2.1⟩

/-! ## Closing a session: `%exit` against a disconnect (C11) -/

theorem handle_round_disconnect (parse : String → Option Request) (boards : Boards)
    (u : String) (fd : Int) (t : String) :
    handle_round parse boards u fd t "" =
      { boards := boards, sent := [], status := Status.Closed } := by
  rfl

/-- Claim C11 fails on the code for a disconnect: when `recv_request` yields no
data the main loop is left with every board as it was, so bob, a member of
`default` and `group1`, is still a member of both after his session is closed,
where the `%exit` command in the same state removes him from every board. -/
theorem disconnect_keeps_memberships :
    handle_round (fun _ => none)
        [("default", BulletinBoard.mk ["1, alice, T1, s1, b1"] [("alice", 4), ("bob", 5)]),
         ("group1", BulletinBoard.mk [] [("bob", 5)])] "bob" 5 "T" "" =
      { boards :=
          [("default", BulletinBoard.mk ["1, alice, T1, s1, b1"] [("alice", 4), ("bob", 5)]),
           ("group1", BulletinBoard.mk [] [("bob", 5)])],
        sent := [], status := Status.Closed } ∧
    username_exists_anywhere
      (handle_round (fun _ => none)
        [("default", BulletinBoard.mk ["1, alice, T1, s1, b1"] [("alice", 4), ("bob", 5)]),
         ("group1", BulletinBoard.mk [] [("bob", 5)])] "bob" 5 "T" "").boards "bob" = true ∧
    username_exists_anywhere
      (dispatch
        [("default", BulletinBoard.mk ["1, alice, T1, s1, b1"] [("alice", 4), ("bob", 5)]),
         ("group1", BulletinBoard.mk [] [("bob", 5)])] "bob" 5 "T"
        "%exit" (Request.mk (some "%exit") none none none none)).boards "bob" = false := by
  decide

/-! ## The handshake and username uniqueness (C12) -/

theorem handshake_loop_active (boards : Boards) (fd : Int) (u₀ : String) (chunks : List String)
    (u : String) (h : (handshake_loop boards fd u₀ chunks).2 = Handshake.active u) :
    username_exists_anywhere boards u = false := by
  induction chunks generalizing u₀ with
  | nil =>
    unfold handshake_loop at h
    by_cases hx : username_exists_anywhere boards u₀ = true
    · simp [if_pos hx] at h
    · simp only [if_neg hx, Handshake.active.injEq] at h
      subst h
      simpa using hx
  | cons chunk rest ih =>
    unfold handshake_loop at h
    by_cases hx : username_exists_anywhere boards u₀ = true
    · simp only [if_pos hx] at h
      by_cases hc : chunk = ""
      · simp [if_pos hc] at h
      · simp only [if_neg hc] at h
        exact ih _ h
    · simp only [if_neg hx, Handshake.active.injEq] at h
      subst h
      simpa using hx

/-- Claim C12, as the code has it. The handshake compares a candidate with the
members of the boards only and records nothing itself: a username it accepts
is a member of no board at that moment, a candidate that is a member of some
board is answered with the request for another name, and a candidate that is a
member of no board is accepted at once. -/
theorem handshake_unique_among_members (boards : Boards) (fd : Int) :
    (∀ chunks u, (handshake boards fd chunks).2 = Handshake.active u →
      username_exists_anywhere boards u = false) ∧
    (∀ chunk, chunk ≠ "" → username_exists_anywhere boards (trim chunk) = true →
      handshake boards fd [chunk] =
        ([(fd, "Enter a username: \n"),
          (fd, "username already exists, please choose another username: \n")],
         Handshake.waiting)) ∧
    (∀ chunk rest, chunk ≠ "" → username_exists_anywhere boards (trim chunk) = false →
      handshake boards fd (chunk :: rest) =
        ([(fd, "Enter a username: \n")], Handshake.active (trim chunk))) := by
  refine ⟨?_, ?_, ?_⟩
  · intro chunks u h
    cases chunks with
    | nil => simp [handshake] at h
    | cons chunk rest =>
      unfold handshake at h
      by_cases hc : chunk = ""
      · simp [if_pos hc] at h
      · simp only [if_neg hc] at h
        exact handshake_loop_active boards fd _ rest u h
  · intro chunk hc hx
    unfold handshake
    simp only [if_neg hc]
    unfold handshake_loop
    simp only [if_pos hx]
    rfl
  · intro chunk rest hc hx
    have hx' : ¬ username_exists_anywhere boards (trim chunk) = true := by simp [hx]
    unfold handshake
    simp only [if_neg hc]
    cases rest with
    | nil =>
      unfold handshake_loop
      simp only [if_neg hx']
      rfl
    | cons c rest =>
      unfold handshake_loop
      simp only [if_neg hx']
      rfl

/-- An instance of claim C12 as amended: alice is a member of `default`; a
second client asking for `alice` is told to choose another name, and then is
accepted as `bob`. -/
theorem handshake_unique_among_members_witness :
    handshake [("default", BulletinBoard.mk [] [("alice", 4)]), ("group1", BulletinBoard.empty)]
        5 ["alice\n", "bob\n"] =
      ([(5, "Enter a username: \n"),
        (5, "username already exists, please choose another username: \n")],
       Handshake.active "bob") ∧
    username_exists_anywhere
      [("default", BulletinBoard.mk [] [("alice", 4)]), ("group1", BulletinBoard.empty)] "bob"
      = false :=
  ⟨by decide,
   (handshake_unique_among_members
      [("default", BulletinBoard.mk [] [("alice", 4)]), ("group1", BulletinBoard.empty)] 5).1
      ["alice\n", "bob\n"] "bob" (by decide)⟩

/-- Claim C12 fails as stated: on the initial boards, where nobody has joined
anything, two clients that both answer the prompt with `alice` are both
accepted and bound to the username `alice`. -/
theorem handshake_accepts_same_username_twice :
    username_exists_anywhere Server_init "alice" = false ∧
    handshake Server_init 4 ["alice\n"] =
      ([(4, "Enter a username: \n")], Handshake.active "alice") ∧
    handshake Server_init 5 ["alice\n"] =
      ([(5, "Enter a username: \n")], Handshake.active "alice") := by
  decide

/-! ## Facts about the command dispatch -/

namespace StrMap

variable {α : Type}

theorem keys_store (m : StrMap α) (k : String) (v : α) : keys (store m k v) = keys m := by
  induction m with
  | nil => rfl
  | cons p rest ih =>
    obtain ⟨k', v'⟩ := p
    have ih' : List.map Prod.fst (store rest k v) = List.map Prod.fst rest := ih
    by_cases h : k' = k
    · simp [store, keys, h] at ih' ⊢
      exact ih'
    · simp [store, keys, h] at ih' ⊢
      exact ih'

theorem find_store_ne (m : StrMap α) (k x : String) (v : α) (hx : x ≠ k) :
    find (store m k v) x = find m x := by
  induction m with
  | nil => rfl
  | cons p rest ih =>
    obtain ⟨k', v'⟩ := p
    have hcons : store ((k', v') :: rest) k v =
        (if k' = k then (k', v) else (k', v')) :: store rest k v := rfl
    rw [hcons]
    by_cases h : k' = k
    · have hkx : ¬ k' = x := fun e => hx (e.symm.trans h)
      rw [if_pos h]
      simp only [find, if_neg hkx]
      exact ih
    · rw [if_neg h]
      by_cases hkx : k' = x
      · simp only [find, if_pos hkx]
      · simp only [find, if_neg hkx]
        exact ih

theorem find_store_self (m : StrMap α) (k : String) (v w : α) (h : find m k = some w) :
    find (store m k v) k = some v := by
  induction m with
  | nil => simp [find] at h
  | cons p rest ih =>
    obtain ⟨k', v'⟩ := p
    have hcons : store ((k', v') :: rest) k v =
        (if k' = k then (k', v) else (k', v')) :: store rest k v := rfl
    rw [hcons]
    by_cases hk : k' = k
    · rw [if_pos hk]
      simp only [find, if_pos hk]
    · rw [if_neg hk]
      simp only [find, if_neg hk] at h ⊢
      exact ih h

theorem getElem?_store_ne (m : StrMap α) (k : String) (v : α) (i : Nat) (name : String) (w : α)
    (hi : m[i]? = some (name, w)) (hne : name ≠ k) : (store m k v)[i]? = some (name, w) := by
  unfold store
  rw [List.getElem?_map, hi]
  simp [hne]

theorem store_self (m : StrMap α) (k : String) (v : α) (hm : WF m) (h : find m k = some v) :
    store m k v = m := by
  induction m with
  | nil => rfl
  | cons p rest ih =>
    obtain ⟨k', v'⟩ := p
    have hm' : (∀ a ∈ keys rest, key_lt k' a) ∧ WF rest := by
      simpa [WF, keys] using hm
    have hcons : store ((k', v') :: rest) k v =
        (if k' = k then (k', v) else (k', v')) :: store rest k v := rfl
    rw [hcons]
    by_cases hk : k' = k
    · simp only [find, if_pos hk, Option.some.injEq] at h
      rw [if_pos hk, h]
      congr 1
      unfold store
      have hall : ∀ q ∈ rest, (if q.1 = k then (q.1, v) else q) = q := by
        intro q hq
        have hq' : q.1 ∈ keys rest := List.mem_map.2 ⟨q, hq, rfl⟩
        have hne : ¬ q.1 = k := by
          intro e
          have hlt := hm'.1 q.1 hq'
          rw [e, ← hk] at hlt
          exact key_lt_irrefl _ hlt
        rw [if_neg hne]
      calc List.map (fun q => if q.1 = k then (q.1, v) else q) rest
          = List.map id rest := List.map_congr_left hall
        _ = rest := List.map_id rest
    · simp only [find, if_neg hk] at h
      rw [if_neg hk, ih hm'.2 h]

theorem find_eq_none_of_not_mem_keys (m : StrMap α) (k : String) (h : k ∉ keys m) :
    find m k = none :=
  find_eq_none_of_forall_ne m k (fun _ ha e => h (e ▸ ha))

end StrMap

theorem dispatch_groupjoin (boards : Boards) (u : String) (fd : Int) (t : String)
    (c : Option String) (g : String) (s m : Option String) (i : Option Int) :
    dispatch boards u fd t "%groupjoin" (Request.mk c (some g) s m i) =
      match get_board boards g with
      | none =>
        { boards := boards, sent := [(fd, no_group_error g)], status := Status.Active }
      | some board =>
        finish boards g fd
          (((board.group_join u fd).and_then (fun b => b.group_users "")).and_then
            (fun b => b.send_prev_two_messages u)) := by
  rfl

theorem dispatch_grouppost (boards : Boards) (u : String) (fd : Int) (t : String)
    (c : Option String) (g subject message : String) (i : Option Int) :
    dispatch boards u fd t "%grouppost" (Request.mk c (some g) (some subject) (some message) i) =
      match get_board boards g with
      | none =>
        { boards := boards, sent := [(fd, no_group_error g)], status := Status.Active }
      | some board => finish boards g fd (board.group_post u subject message t) := by
  rfl

theorem dispatch_groupusers (boards : Boards) (u : String) (fd : Int) (t : String)
    (c : Option String) (g : String) (s m : Option String) (i : Option Int) :
    dispatch boards u fd t "%groupusers" (Request.mk c (some g) s m i) =
      match get_board boards g with
      | none =>
        { boards := boards, sent := [(fd, no_group_error g)], status := Status.Active }
      | some board => finish boards g fd (board.group_users u) := by
  rfl

theorem dispatch_groupleave (boards : Boards) (u : String) (fd : Int) (t : String)
    (c : Option String) (g : String) (s m : Option String) (i : Option Int) :
    dispatch boards u fd t "%groupleave" (Request.mk c (some g) s m i) =
      match get_board boards g with
      | none =>
        { boards := boards, sent := [(fd, no_group_error g)], status := Status.Active }
      | some board =>
        finish boards g fd ((board.group_leave u).and_then (fun b => b.group_users "")) := by
  rfl

theorem dispatch_groupmessage (boards : Boards) (u : String) (fd : Int) (t : String)
    (c : Option String) (g : String) (s m : Option String) (id : Int) :
    dispatch boards u fd t "%groupmessage" (Request.mk c (some g) s m (some id)) =
      match get_board boards g with
      | none =>
        { boards := boards, sent := [(fd, no_group_error g)], status := Status.Active }
      | some board => finish boards g fd (board.group_message u id) := by
  rfl

theorem group_users_broadcast (b : BulletinBoard) (h : b.members_ ≠ []) :
    b.group_users "" =
      { board := b,
        sent := b.members_.map
          (fun p => (p.2, "users: " ++ user_list b.members_.keys ++ " \n")),
        error := none } := by
  unfold group_users
  have h₁ : ¬ b.members_.isEmpty = true := by
    intro e
    exact h (List.isEmpty_iff.1 e)
  simp only [if_neg h₁, if_true]
  rfl

theorem group_users_of_no_members (b : BulletinBoard) (u : String) (h : b.members_ = []) :
    b.group_users u = { board := b, sent := [], error := none } := by
  unfold group_users
  have h₁ : b.members_.isEmpty = true := by
    rw [h]
    rfl
  simp only [if_pos h₁]

theorem send_prev_two_messages_error (b : BulletinBoard) (u : String) :
    (b.send_prev_two_messages u).error = none := by
  unfold send_prev_two_messages
  cases b.members_.find u with
  | none => rfl
  | some sock =>
    by_cases h₂ : wrap32 (b.messages_.length : Int) ≥ 2
    · simp only [if_pos h₂]
    · by_cases h₁ : wrap32 (b.messages_.length : Int) = 1
      · simp only [if_neg h₂, if_pos h₁]
      · simp only [if_neg h₂, if_neg h₁]

theorem assign_ne_nil (m : StrMap Int) (k : String) (v : Int) : m.assign k v ≠ [] := by
  cases m with
  | nil => simp [StrMap.assign]
  | cons p rest =>
    obtain ⟨k', v'⟩ := p
    unfold StrMap.assign
    by_cases h₁ : StrMap.key_lt k k'
    · simp [if_pos h₁]
    · by_cases h₂ : k = k'
      · simp [if_neg h₁, if_pos h₂]
      · simp [if_neg h₁, if_neg h₂]

theorem and_then_of_ok (o : Outcome) (next : BulletinBoard → Outcome) (h : o.error = none) :
    o.and_then next =
      { board := (next o.board).board, sent := o.sent ++ (next o.board).sent,
        error := (next o.board).error } := by
  unfold Outcome.and_then
  rw [h]

theorem and_then_of_error (o : Outcome) (next : BulletinBoard → Outcome) (what : String)
    (h : o.error = some what) : o.and_then next = o := by
  unfold Outcome.and_then
  rw [h]

theorem finish_of_ok (boards : Boards) (g : String) (fd : Int) (o : Outcome)
    (h : o.error = none) :
    finish boards g fd o =
      { boards := boards.store g o.board, sent := o.sent, status := Status.Active } := by
  unfold finish
  rw [h]

theorem finish_of_error (boards : Boards) (g : String) (fd : Int) (o : Outcome) (what : String)
    (h : o.error = some what) :
    finish boards g fd o =
      { boards := boards.store g o.board,
        sent := o.sent ++ [(fd, "Error: " ++ what ++ "\n")], status := Status.Active } := by
  unfold finish
  rw [h]
  rfl

theorem dispatch_groupjoin_of_not_member (boards : Boards) (u : String) (fd : Int) (t : String)
    (c : Option String) (g : String) (s m : Option String) (i : Option Int)
    (b : BulletinBoard) (hb : get_board boards g = some b) (hu : b.members_.find u = none) :
    dispatch boards u fd t "%groupjoin" (Request.mk c (some g) s m i) =
      { boards := boards.store g { b with members_ := b.members_.assign u fd },
        sent :=
          (b.members_.assign u fd).map
            (fun p => (p.2, "users: " ++ user_list (b.members_.assign u fd).keys ++ " \n")) ++
          (BulletinBoard.send_prev_two_messages
            { b with members_ := b.members_.assign u fd } u).sent,
        status := Status.Active } := by
  rw [dispatch_groupjoin, hb]
  simp only []
  rw [group_join_of_not_member b u fd ((StrMap.count_eq_zero_iff _ _).2 hu)]
  have e₁ := and_then_of_ok
    (Outcome.mk { b with members_ := b.members_.assign u fd } [] none)
    (fun b => b.group_users "") rfl
  rw [e₁]
  simp only []
  rw [group_users_broadcast { b with members_ := b.members_.assign u fd } (assign_ne_nil _ _ _)]
  rw [and_then_of_ok _ _ rfl]
  simp only []
  rw [finish_of_ok _ _ _ _ (by exact send_prev_two_messages_error _ _)]
  simp only [send_prev_two_messages_board, List.nil_append]

theorem finish_boards (boards : Boards) (g : String) (fd : Int) (o : Outcome) :
    (finish boards g fd o).boards = boards.store g o.board := by
  unfold finish
  cases o.error <;> rfl

theorem finish_status (boards : Boards) (g : String) (fd : Int) (o : Outcome) :
    (finish boards g fd o).status = Status.Active := by
  unfold finish
  cases o.error <;> rfl

theorem dispatch_groupjoin_boards (boards : Boards) (u : String) (fd : Int) (t : String)
    (req : Request) (g : String) (hreq : req.group = some g) :
    (dispatch boards u fd t "%groupjoin" req).boards = boards ∨
    ∃ b, (dispatch boards u fd t "%groupjoin" req).boards = boards.store g b := by
  obtain ⟨c, g', s, m, i⟩ := req
  simp only at hreq
  subst hreq
  rw [dispatch_groupjoin]
  cases get_board boards g with
  | none => exact Or.inl rfl
  | some b => exact Or.inr ⟨_, finish_boards _ _ _ _⟩

theorem dispatch_grouppost_boards (boards : Boards) (u : String) (fd : Int) (t : String)
    (req : Request) (g : String) (hreq : req.group = some g) :
    (dispatch boards u fd t "%grouppost" req).boards = boards ∨
    ∃ b, (dispatch boards u fd t "%grouppost" req).boards = boards.store g b := by
  obtain ⟨c, g', s, m, i⟩ := req
  simp only at hreq
  subst hreq
  cases s with
  | none => exact Or.inl rfl
  | some subject =>
    cases m with
    | none => exact Or.inl rfl
    | some message =>
      rw [dispatch_grouppost]
      cases get_board boards g with
      | none => exact Or.inl rfl
      | some b => exact Or.inr ⟨_, finish_boards _ _ _ _⟩

theorem dispatch_groupleave_boards (boards : Boards) (u : String) (fd : Int) (t : String)
    (req : Request) (g : String) (hreq : req.group = some g) :
    (dispatch boards u fd t "%groupleave" req).boards = boards ∨
    ∃ b, (dispatch boards u fd t "%groupleave" req).boards = boards.store g b := by
  obtain ⟨c, g', s, m, i⟩ := req
  simp only at hreq
  subst hreq
  rw [dispatch_groupleave]
  cases get_board boards g with
  | none => exact Or.inl rfl
  | some b => exact Or.inr ⟨_, finish_boards _ _ _ _⟩

theorem mem_of_find (boards : Boards) (g : String) (b : BulletinBoard)
    (h : boards.find g = some b) : (g, b) ∈ boards :=
  StrMap.mem_keys_of_find boards g b h

theorem username_exists_of_member (boards : Boards) (g : String) (b : BulletinBoard) (u : String)
    (hb : get_board boards g = some b) (hu : b.has_member u = true) :
    username_exists_anywhere boards u = true := by
  unfold username_exists_anywhere
  rw [List.any_eq_true]
  exact ⟨(g, b), mem_of_find boards g b hb, hu⟩

theorem has_member_assign (b : BulletinBoard) (u : String) (fd : Int) :
    BulletinBoard.has_member { b with members_ := b.members_.assign u fd } u = true := by
  unfold has_member
  have h := (StrMap.count_pos_iff (b.members_.assign u fd) u).2
    ⟨fd, StrMap.find_assign_self _ _ _⟩
  simpa using h

/-! ## Joining several groups, and the other boards (C13) -/

/-- Claim C13. A session with username `u` that is a member of neither of two
distinct existing groups joins the first and then the second: both commands
succeed (user list and catch-up posts are sent, no error reply), although
after the first join `username_exists_anywhere(u)` is true, and `u` is then a
member of both boards. A join, post or leave command on one group leaves every
entry of `bulletinboards_` under another name as it was. -/
theorem join_two_groups (boards : Boards) (u : String) (fd : Int) (t₁ t₂ : String)
    (g₁ g₂ : String) (b₁ b₂ : BulletinBoard) (c₁ c₂ s₁ s₂ m₁ m₂ : Option String)
    (i₁ i₂ : Option Int) (hg : g₁ ≠ g₂)
    (h₁ : get_board boards g₁ = some b₁) (h₂ : get_board boards g₂ = some b₂)
    (hu₁ : b₁.members_.find u = none) (hu₂ : b₂.members_.find u = none) :
    dispatch boards u fd t₁ "%groupjoin" (Request.mk c₁ (some g₁) s₁ m₁ i₁) =
      { boards := boards.store g₁ { b₁ with members_ := b₁.members_.assign u fd },
        sent :=
          (b₁.members_.assign u fd).map
            (fun p => (p.2, "users: " ++ user_list (b₁.members_.assign u fd).keys ++ " \n")) ++
          (BulletinBoard.send_prev_two_messages
            { b₁ with members_ := b₁.members_.assign u fd } u).sent,
        status := Status.Active } ∧
    username_exists_anywhere
      (boards.store g₁ { b₁ with members_ := b₁.members_.assign u fd }) u = true ∧
    dispatch (boards.store g₁ { b₁ with members_ := b₁.members_.assign u fd }) u fd t₂
        "%groupjoin" (Request.mk c₂ (some g₂) s₂ m₂ i₂) =
      { boards := (boards.store g₁ { b₁ with members_ := b₁.members_.assign u fd }).store g₂
          { b₂ with members_ := b₂.members_.assign u fd },
        sent :=
          (b₂.members_.assign u fd).map
            (fun p => (p.2, "users: " ++ user_list (b₂.members_.assign u fd).keys ++ " \n")) ++
          (BulletinBoard.send_prev_two_messages
            { b₂ with members_ := b₂.members_.assign u fd } u).sent,
        status := Status.Active } ∧
    get_board ((boards.store g₁ { b₁ with members_ := b₁.members_.assign u fd }).store g₂
        { b₂ with members_ := b₂.members_.assign u fd }) g₁ =
      some { b₁ with members_ := b₁.members_.assign u fd } ∧
    get_board ((boards.store g₁ { b₁ with members_ := b₁.members_.assign u fd }).store g₂
        { b₂ with members_ := b₂.members_.assign u fd }) g₂ =
      some { b₂ with members_ := b₂.members_.assign u fd } ∧
    BulletinBoard.has_member { b₁ with members_ := b₁.members_.assign u fd } u = true ∧
    BulletinBoard.has_member { b₂ with members_ := b₂.members_.assign u fd } u = true ∧
    (∀ (boards₀ : Boards) (v : String) (fd₀ : Int) (t : String) (command g : String)
      (req : Request), req.group = some g →
      command = "%groupjoin" ∨ command = "%grouppost" ∨ command = "%groupleave" →
      ∀ (i : Nat) (name : String) (b : BulletinBoard),
        boards₀[i]? = some (name, b) → name ≠ g →
        (dispatch boards₀ v fd₀ t command req).boards[i]? = some (name, b)) := by
  have hfirst : get_board (boards.store g₁ { b₁ with members_ := b₁.members_.assign u fd }) g₁ =
      some { b₁ with members_ := b₁.members_.assign u fd } :=
    StrMap.find_store_self boards g₁ _ b₁ h₁
  have hsecond : get_board (boards.store g₁ { b₁ with members_ := b₁.members_.assign u fd }) g₂ =
      some b₂ := by
    unfold get_board
    rw [StrMap.find_store_ne boards g₁ g₂ _ (fun e => hg e.symm)]
    exact h₂
  refine ⟨dispatch_groupjoin_of_not_member boards u fd t₁ c₁ g₁ s₁ m₁ i₁ b₁ h₁ hu₁, ?_,
    dispatch_groupjoin_of_not_member _ u fd t₂ c₂ g₂ s₂ m₂ i₂ b₂ hsecond hu₂, ?_, ?_,
    has_member_assign b₁ u fd, has_member_assign b₂ u fd, ?_⟩
  · exact username_exists_of_member _ g₁ _ u hfirst (has_member_assign b₁ u fd)
  · unfold get_board
    rw [StrMap.find_store_ne _ g₂ g₁ _ hg]
    exact hfirst
  · exact StrMap.find_store_self _ g₂ _ b₂ hsecond
  · intro boards₀ v fd₀ t command g req hreq hcmd i name b hi hne
    have hcases : (dispatch boards₀ v fd₀ t command req).boards = boards₀ ∨
        ∃ b', (dispatch boards₀ v fd₀ t command req).boards = boards₀.store g b' := by
      rcases hcmd with h | h | h
      · rw [h]; exact dispatch_groupjoin_boards boards₀ v fd₀ t req g hreq
      · rw [h]; exact dispatch_grouppost_boards boards₀ v fd₀ t req g hreq
      · rw [h]; exact dispatch_groupleave_boards boards₀ v fd₀ t req g hreq
    rcases hcases with h | ⟨b', h⟩
    · rw [h]; exact hi
    · rw [h]; exact StrMap.getElem?_store_ne boards₀ g b' i name b hi hne

/-- An instance of claim C13: alice joins `default` and then `group1` from the
initial boards. -/
theorem join_two_groups_witness :
    (dispatch
      (dispatch Server_init "alice" 4 "T"
        "%groupjoin" (Request.mk (some "%groupjoin") (some "default") none none none)).boards
      "alice" 4 "T"
      "%groupjoin" (Request.mk (some "%groupjoin") (some "group1") none none none)) =
      { boards :=
          [("default", BulletinBoard.mk [] [("alice", 4)]),
           ("group1", BulletinBoard.mk [] [("alice", 4)]),
           ("group2", BulletinBoard.empty), ("group3", BulletinBoard.empty),
           ("group4", BulletinBoard.empty), ("group5", BulletinBoard.empty)],
        sent := [(4, "users: alice \n")], status := Status.Active } ∧
    username_exists_anywhere
      (StrMap.store Server_init "default"
        { BulletinBoard.empty with members_ := BulletinBoard.empty.members_.assign "alice" 4 })
      "alice" = true :=
  ⟨by decide,
   (join_two_groups Server_init "alice" 4 "T" "T" "default" "group1" BulletinBoard.empty
      BulletinBoard.empty (some "%groupjoin") (some "%groupjoin") none none none none none none
      (by decide) (by decide) (by decide) (by decide) (by decide)).2.1⟩

/-! ## Unknown groups (C14) -/

/-- Claim C14. For each of the five commands that name a group, with its
required fields present, and a group name that is no key of `bulletinboards_`:
the round sends exactly one message, to the requesting connection, the text
`Error: Group '<name>' does not exist.` with a newline, which contains the
name; the boards are as they were and the session stays active. -/
theorem unknown_group_gets_error_reply (boards : Boards) (u : String) (fd : Int) (t : String)
    (g : String) (hg : g ∉ boards.keys) (c s m : Option String) (i : Option Int)
    (subject message : String) (id : Int) :
    dispatch boards u fd t "%groupjoin" (Request.mk c (some g) s m i) =
      { boards := boards, sent := [(fd, "Error: Group '" ++ g ++ "' does not exist.\n")],
        status := Status.Active } ∧
    dispatch boards u fd t "%grouppost"
        (Request.mk c (some g) (some subject) (some message) i) =
      { boards := boards, sent := [(fd, "Error: Group '" ++ g ++ "' does not exist.\n")],
        status := Status.Active } ∧
    dispatch boards u fd t "%groupusers" (Request.mk c (some g) s m i) =
      { boards := boards, sent := [(fd, "Error: Group '" ++ g ++ "' does not exist.\n")],
        status := Status.Active } ∧
    dispatch boards u fd t "%groupleave" (Request.mk c (some g) s m i) =
      { boards := boards, sent := [(fd, "Error: Group '" ++ g ++ "' does not exist.\n")],
        status := Status.Active } ∧
    dispatch boards u fd t "%groupmessage" (Request.mk c (some g) s m (some id)) =
      { boards := boards, sent := [(fd, "Error: Group '" ++ g ++ "' does not exist.\n")],
        status := Status.Active } ∧
    g.data <:+: ("Error: Group '" ++ g ++ "' does not exist.\n").data := by
  have hnone : get_board boards g = none := StrMap.find_eq_none_of_not_mem_keys boards g hg
  refine ⟨?_, ?_, ?_, ?_, ?_, ?_⟩
  · rw [dispatch_groupjoin, hnone]; rfl
  · rw [dispatch_grouppost, hnone]; rfl
  · rw [dispatch_groupusers, hnone]; rfl
  · rw [dispatch_groupleave, hnone]; rfl
  · rw [dispatch_groupmessage, hnone]; rfl
  · refine ⟨"Error: Group '".data, "' does not exist.\n".data, ?_⟩
    simp only [String.data_append]

/-- An instance of claim C14: alice, a member of `default`, posts to the group
`nowhere`, which the initial boards do not have. -/
theorem unknown_group_gets_error_reply_witness :
    dispatch [("default", BulletinBoard.mk [] [("alice", 4)]), ("group1", BulletinBoard.empty)]
        "alice" 4 "T" "%grouppost"
        (Request.mk (some "%grouppost") (some "nowhere") (some "hi") (some "hello") none) =
      { boards := [("default", BulletinBoard.mk [] [("alice", 4)]),
                   ("group1", BulletinBoard.empty)],
        sent := [(4, "Error: Group 'nowhere' does not exist.\n")],
        status := Status.Active } :=
  (unknown_group_gets_error_reply
    [("default", BulletinBoard.mk [] [("alice", 4)]), ("group1", BulletinBoard.empty)]
    "alice" 4 "T" "nowhere" (by decide) (some "%grouppost") none none none "hi" "hello" 0).2.1

/-! ## Domain errors (C15) -/

theorem has_member_eq_true_iff (b : BulletinBoard) (u : String) :
    b.has_member u = true ↔ b.members_.count u > 0 := by
  unfold has_member
  simp

theorem group_post_of_not_member (b : BulletinBoard) (u subject message t : String)
    (hu : b.members_.find u = none) :
    b.group_post u subject message t =
      { board := b, sent := [], error := some (not_member_error u) } := by
  unfold group_post
  rw [if_pos ((StrMap.count_eq_zero_iff _ _).2 hu)]

theorem group_message_of_not_member (b : BulletinBoard) (u : String) (id : Int)
    (hu : b.members_.find u = none) :
    b.group_message u id = { board := b, sent := [], error := some (not_member_error u) } := by
  unfold group_message
  rw [hu]

/-- Claim C15. When the operation of a command throws a domain error
(`%groupjoin` by a member of the group; `%grouppost`, `%groupleave` or
`%groupmessage` by a non-member), the round sends exactly one message, the text
`Error: ` with the error and a newline, to the requesting connection; nothing
is broadcast, the boards are as they were and the session stays active. -/
theorem domain_error_gets_error_reply (boards : Boards) (hwf : boards.WF) (u : String)
    (fd : Int) (t : String) (g : String) (b : BulletinBoard)
    (hb : get_board boards g = some b) (c s m : Option String) (i : Option Int)
    (subject message : String) (id : Int) :
    (b.has_member u = true →
      dispatch boards u fd t "%groupjoin" (Request.mk c (some g) s m i) =
        { boards := boards,
          sent := [(fd, "Error: user " ++ u ++ " is already a member of this group.\n")],
          status := Status.Active }) ∧
    (b.has_member u = false →
      dispatch boards u fd t "%grouppost"
          (Request.mk c (some g) (some subject) (some message) i) =
        { boards := boards,
          sent := [(fd, "Error: User '" ++ u ++ "' is not a member of this group.\n")],
          status := Status.Active } ∧
      dispatch boards u fd t "%groupleave" (Request.mk c (some g) s m i) =
        { boards := boards,
          sent := [(fd, "Error: User '" ++ u ++ "' is not a member of this group.\n")],
          status := Status.Active } ∧
      dispatch boards u fd t "%groupmessage" (Request.mk c (some g) s m (some id)) =
        { boards := boards,
          sent := [(fd, "Error: User '" ++ u ++ "' is not a member of this group.\n")],
          status := Status.Active }) := by
  have hstore : boards.store g b = boards := StrMap.store_self boards g b hwf hb
  have herr₁ : "Error: " ++ already_member_error u ++ "\n" =
      "Error: user " ++ u ++ " is already a member of this group.\n" := by
    unfold already_member_error
    simp only [String.append_assoc]
    rfl
  have herr₂ : "Error: " ++ not_member_error u ++ "\n" =
      "Error: User '" ++ u ++ "' is not a member of this group.\n" := by
    unfold not_member_error
    simp only [String.append_assoc]
    rfl
  constructor
  · intro hu
    rw [dispatch_groupjoin, hb]
    simp only []
    rw [group_join_of_member b u fd ((has_member_eq_true_iff b u).1 hu)]
    rw [and_then_of_error (Outcome.mk b [] (some (already_member_error u))) _ _ rfl]
    rw [and_then_of_error _ _ _ rfl, finish_of_error _ _ _ _ _ rfl]
    simp only [hstore, List.nil_append, herr₁]
  · intro hu
    have hfind : b.members_.find u = none := (has_member_eq_false_iff b u).1 hu
    refine ⟨?_, ?_, ?_⟩
    · rw [dispatch_grouppost, hb]
      simp only []
      rw [group_post_of_not_member b u subject message t hfind, finish_of_error _ _ _ _ _ rfl]
      simp only [hstore, List.nil_append, herr₂]
    · rw [dispatch_groupleave, hb]
      simp only []
      rw [group_leave_of_not_member b u hfind, and_then_of_error _ _ _ rfl,
        finish_of_error _ _ _ _ _ rfl]
      simp only [hstore, List.nil_append, herr₂]
    · rw [dispatch_groupmessage, hb]
      simp only []
      rw [group_message_of_not_member b u id hfind, finish_of_error _ _ _ _ _ rfl]
      simp only [hstore, List.nil_append, herr₂]

/-- An instance of claim C15: carl, who has not joined `default`, posts to it;
alice and bob, its members, are sent nothing. -/
theorem domain_error_gets_error_reply_witness :
    dispatch [("default", BulletinBoard.mk [] [("alice", 4), ("bob", 5)]),
        ("group1", BulletinBoard.empty)] "carl" 6 "T" "%grouppost"
        (Request.mk (some "%grouppost") (some "default") (some "hi") (some "hello") none) =
      { boards := [("default", BulletinBoard.mk [] [("alice", 4), ("bob", 5)]),
                   ("group1", BulletinBoard.empty)],
        sent := [(6, "Error: User 'carl' is not a member of this group.\n")],
        status := Status.Active } ∧
    dispatch [("default", BulletinBoard.mk [] [("alice", 4), ("bob", 5)]),
        ("group1", BulletinBoard.empty)] "bob" 5 "T" "%groupjoin"
        (Request.mk (some "%groupjoin") (some "default") none none none) =
      { boards := [("default", BulletinBoard.mk [] [("alice", 4), ("bob", 5)]),
                   ("group1", BulletinBoard.empty)],
        sent := [(5, "Error: user bob is already a member of this group.\n")],
        status := Status.Active } :=
  ⟨((domain_error_gets_error_reply
      [("default", BulletinBoard.mk [] [("alice", 4), ("bob", 5)]),
       ("group1", BulletinBoard.empty)] (by decide) "carl" 6 "T" "default"
      (BulletinBoard.mk [] [("alice", 4), ("bob", 5)]) (by decide)
      (some "%grouppost") none none none "hi" "hello" 0).2 (by decide)).1,
   (domain_error_gets_error_reply
      [("default", BulletinBoard.mk [] [("alice", 4), ("bob", 5)]),
       ("group1", BulletinBoard.empty)] (by decide) "bob" 5 "T" "default"
      (BulletinBoard.mk [] [("alice", 4), ("bob", 5)]) (by decide)
      (some "%groupjoin") none none none "" "" 0).1 (by decide)⟩

/-! ## Malformed requests (C16) -/

/-- Claim C16. A received chunk whose request is malformed is dropped: when
`json::parse` throws, when the `command` accessor throws, or when the accessor
of a field the command requires throws (`group`; for `%grouppost` also
`subject` and `message`; for `%groupmessage` also `message_id`), whatever the
other fields hold, the round sends nothing, leaves the boards as they were and
the session stays active. -/
theorem malformed_request_is_dropped (parse : String → Option Request) (boards : Boards)
    (u : String) (fd : Int) (t : String) (req_str : String) (hne : req_str ≠ "") :
    (parse (trim req_str) = none →
      handle_round parse boards u fd t req_str =
        { boards := boards, sent := [], status := Status.Active }) ∧
    (∀ req, parse (trim req_str) = some req → req.command = none →
      handle_round parse boards u fd t req_str =
        { boards := boards, sent := [], status := Status.Active }) ∧
    (∀ req command, parse (trim req_str) = some req → req.command = some command →
      command = "%groupjoin" ∨ command = "%grouppost" ∨ command = "%groupusers" ∨
        command = "%groupleave" ∨ command = "%groupmessage" →
      req.group = none →
      handle_round parse boards u fd t req_str =
        { boards := boards, sent := [], status := Status.Active }) ∧
    (∀ req, parse (trim req_str) = some req → req.command = some "%grouppost" →
      req.subject = none ∨ req.message = none →
      handle_round parse boards u fd t req_str =
        { boards := boards, sent := [], status := Status.Active }) ∧
    (∀ req, parse (trim req_str) = some req → req.command = some "%groupmessage" →
      req.message_id = none →
      handle_round parse boards u fd t req_str =
        { boards := boards, sent := [], status := Status.Active }) := by
  refine ⟨?_, ?_, ?_, ?_, ?_⟩
  · intro hp
    unfold handle_round
    rw [if_neg hne, hp]
  · intro req hp hc
    unfold handle_round
    rw [if_neg hne, hp]
    simp only []
    rw [hc]
  · intro req command hp hc hcmd hg
    unfold handle_round
    rw [if_neg hne, hp]
    simp only []
    rw [hc]
    simp only []
    obtain ⟨c, g, s, m, i⟩ := req
    simp only at hg
    subst hg
    rcases hcmd with h | h | h | h | h <;> subst h <;> rfl
  · intro req hp hc hsm
    unfold handle_round
    rw [if_neg hne, hp]
    simp only []
    rw [hc]
    simp only []
    obtain ⟨c, g, s, m, i⟩ := req
    simp only at hsm
    cases g with
    | none => rfl
    | some g =>
      rcases hsm with h | h
      · subst h; rfl
      · subst h
        cases s <;> rfl
  · intro req hp hc hid
    unfold handle_round
    rw [if_neg hne, hp]
    simp only []
    rw [hc]
    simp only []
    obtain ⟨c, g, s, m, i⟩ := req
    simp only at hid
    subst hid
    cases g <;> rfl

/-- An instance of claim C16: a `%grouppost` request without a subject, naming
a group that does not exist, is dropped without a reply. -/
theorem malformed_request_is_dropped_witness :
    handle_round
        (fun _ => some (Request.mk (some "%grouppost") (some "nowhere") none (some "x") none))
        [("default", BulletinBoard.mk [] [("alice", 4)])] "alice" 4 "T" "request\n" =
      { boards := [("default", BulletinBoard.mk [] [("alice", 4)])], sent := [],
        status := Status.Active } :=
  (malformed_request_is_dropped
    (fun _ => some (Request.mk (some "%grouppost") (some "nowhere") none (some "x") none))
    [("default", BulletinBoard.mk [] [("alice", 4)])] "alice" 4 "T" "request\n"
    (by decide)).2.2.2.1
    (Request.mk (some "%grouppost") (some "nowhere") none (some "x") none) rfl rfl
    (Or.inl rfl)

/-! ## Broadcast sends that fail (C17) -/

theorem broadcast_on_of_no_sigpipe (net : Nat → SendResult) (thumb : String) (k : Nat)
    (m : StrMap Int) (hnet : ∀ i, net i ≠ SendResult.sigpipe) :
    (broadcast_on net thumb k m).2 = true ∧
    (broadcast_on net thumb k m).1.map (fun a => (a.sock, a.msg)) =
      m.map (fun pair => send_all pair.2 thumb) := by
  induction m generalizing k with
  | nil => exact ⟨rfl, rfl⟩
  | cons p rest ih =>
    have halive : (send_all_on (net k) p.2 thumb).2 = true := by
      unfold send_all_on
      simpa using hnet k
    unfold broadcast_on
    rw [if_pos halive]
    refine ⟨(ih (k + 1)).1, ?_⟩
    simp only [List.map_cons, (ih (k + 1)).2]
    rfl

/-- While no send raises `SIGPIPE`, error returns of `::send` leave `group_post`
as it is on a network where every send succeeds. -/
theorem group_post_on_of_no_sigpipe (net : Nat → SendResult) (b : BulletinBoard)
    (u subject body t : String) (hnet : ∀ i, net i ≠ SendResult.sigpipe) :
    (group_post_on net b u subject body t).1 = some (b.group_post u subject body t) := by
  unfold group_post_on group_post
  by_cases h : b.members_.count u = 0
  · simp only [if_pos h]
  · have hb := broadcast_on_of_no_sigpipe net (thumb_post (post_id b) u t subject) 0
      b.members_ hnet
    simp only [if_neg h, if_pos hb.1, hb.2]

/-- Claim C17 fails on the code. Alice posts on a board of alice, bob and carl
while bob's peer has closed its connection: the send to bob raises `SIGPIPE`
and the process ends there, so carl is never attempted and `group_post` does
not return. With every send delivered, or with the send to bob returning an
error instead, the call returns, the post is appended and all three members
are attempted. -/
theorem group_post_killed_by_closed_peer :
    group_post_on (fun i => if i = 1 then SendResult.sigpipe else SendResult.delivered)
        (BulletinBoard.mk [] [("alice", 20), ("bob", 21), ("carl", 22)])
        "alice" "hi" "hello" "T" =
      (none,
       [Attempt.mk 20 "1, alice, T, hi" SendResult.delivered,
        Attempt.mk 21 "1, alice, T, hi" SendResult.sigpipe]) ∧
    group_post_on (fun _ => SendResult.delivered)
        (BulletinBoard.mk [] [("alice", 20), ("bob", 21), ("carl", 22)])
        "alice" "hi" "hello" "T" =
      (some { board := BulletinBoard.mk ["1, alice, T, hi, hello"]
                [("alice", 20), ("bob", 21), ("carl", 22)],
              sent := [(20, "1, alice, T, hi"), (21, "1, alice, T, hi"),
                       (22, "1, alice, T, hi")],
              error := none },
       [Attempt.mk 20 "1, alice, T, hi" SendResult.delivered,
        Attempt.mk 21 "1, alice, T, hi" SendResult.delivered,
        Attempt.mk 22 "1, alice, T, hi" SendResult.delivered]) ∧
    group_post_on (fun i => if i = 1 then SendResult.failed else SendResult.delivered)
        (BulletinBoard.mk [] [("alice", 20), ("bob", 21), ("carl", 22)])
        "alice" "hi" "hello" "T" =
      (some { board := BulletinBoard.mk ["1, alice, T, hi, hello"]
                [("alice", 20), ("bob", 21), ("carl", 22)],
              sent := [(20, "1, alice, T, hi"), (21, "1, alice, T, hi"),
                       (22, "1, alice, T, hi")],
              error := none },
       [Attempt.mk 20 "1, alice, T, hi" SendResult.delivered,
        Attempt.mk 21 "1, alice, T, hi" SendResult.failed,
        Attempt.mk 22 "1, alice, T, hi" SendResult.delivered]) := by
  decide

/-! ## The `%groupjoin` command (C18) -/

theorem drop_last_two (l : List String) (h : 2 ≤ l.length) :
    l.drop (l.length - 2) = [l.getD (l.length - 2) "", l.getD (l.length - 1) ""] := by
  apply List.ext_getElem
  · simp only [List.length_drop, List.length_cons, List.length_nil]
    omega
  · intro n h₁ h₂
    simp only [List.length_drop] at h₁
    have hn : n = 0 ∨ n = 1 := by omega
    rcases hn with rfl | rfl
    · simp [List.getD_eq_getElem?_getD, List.getElem?_eq_getElem (show l.length - 2 < l.length by omega)]
    · have e : l.length - 2 + 1 = l.length - 1 := by omega
      simp [List.getD_eq_getElem?_getD, e, List.getElem?_eq_getElem (show l.length - 1 < l.length by omega)]

theorem send_prev_two_messages_eq_drop (b : BulletinBoard) (u : String) (fd : Int)
    (hu : b.members_.find u = some fd) (hlen : b.messages_.length ≤ 2147483647) :
    (b.send_prev_two_messages u).sent =
      (b.messages_.drop (b.messages_.length - 2)).map (fun m => (fd, m ++ "\n")) := by
  rw [send_prev_two_messages_of_member b u fd hu hlen]
  by_cases h₂ : (b.messages_.length : Int) ≥ 2
  · rw [if_pos h₂, drop_last_two b.messages_ (by omega)]
    rfl
  · rw [if_neg h₂]
    by_cases h₁ : (b.messages_.length : Int) = 1
    · rw [if_pos h₁]
      have h : b.messages_.length = 1 := by omega
      match hm : b.messages_, h with
      | [x], _ => rfl
    · rw [if_neg h₁]
      have h : b.messages_.length = 0 := by omega
      rw [List.length_eq_zero.1 h]
      rfl

/-- Claim C18. `%groupjoin` on an existing group by a non-member inserts the
user, then sends the user list, which now names the user, to every member
entry, the joiner's included, then sends the joiner the last two entries of
the log (all of it when it holds fewer), each followed by a newline, and
nothing else. From the initial boards: alice joins `default` and is sent the user list
only; her post gets id 1 and she is sent its thumbnail, without the body; bob
joins and is sent the user list and post 1 in full, and no thumbnail. -/
theorem groupjoin_inserts_lists_then_catches_up (boards : Boards) (u : String) (fd : Int)
    (t : String) (c : Option String) (g : String) (s m : Option String) (i : Option Int)
    (b : BulletinBoard) (hb : get_board boards g = some b) (hu : b.has_member u = false) :
    dispatch boards u fd t "%groupjoin" (Request.mk c (some g) s m i) =
      { boards := boards.store g { b with members_ := b.members_.assign u fd },
        sent :=
          (b.members_.assign u fd).map
            (fun p => (p.2, "users: " ++ user_list (b.members_.assign u fd).keys ++ " \n")) ++
          (BulletinBoard.send_prev_two_messages
            { b with members_ := b.members_.assign u fd } u).sent,
        status := Status.Active } ∧
    (u, fd) ∈ b.members_.assign u fd ∧
    u ∈ (b.members_.assign u fd).keys ∧
    (∀ x fd₀, b.members_.find x = some fd₀ → (x, fd₀) ∈ b.members_.assign u fd) ∧
    (∀ a ∈ (BulletinBoard.send_prev_two_messages
        { b with members_ := b.members_.assign u fd } u).sent, a.1 = fd) ∧
    (b.messages_.length ≤ 2147483647 →
      (BulletinBoard.send_prev_two_messages
        { b with members_ := b.members_.assign u fd } u).sent =
        (b.messages_.drop (b.messages_.length - 2)).map (fun p => (fd, p ++ "\n"))) ∧
    (dispatch
        (dispatch
          (dispatch Server_init "alice" 4 "T0" "%groupjoin"
            (Request.mk (some "%groupjoin") (some "default") none none none)).boards
          "alice" 4 "T1" "%grouppost"
          (Request.mk (some "%grouppost") (some "default") (some "hi") (some "hello") none)).boards
        "bob" 5 "T2" "%groupjoin"
        (Request.mk (some "%groupjoin") (some "default") none none none)).sent =
      [(4, "users: alice, bob \n"), (5, "users: alice, bob \n"),
       (5, "1, alice, T1, hi, hello\n")] ∧
    (dispatch Server_init "alice" 4 "T0" "%groupjoin"
        (Request.mk (some "%groupjoin") (some "default") none none none)).sent =
      [(4, "users: alice \n")] ∧
    (dispatch
        (dispatch Server_init "alice" 4 "T0" "%groupjoin"
          (Request.mk (some "%groupjoin") (some "default") none none none)).boards
        "alice" 4 "T1" "%grouppost"
        (Request.mk (some "%grouppost") (some "default") (some "hi") (some "hello") none)).sent =
      [(4, "1, alice, T1, hi")] := by
  have hfind : b.members_.find u = none := (has_member_eq_false_iff b u).1 hu
  have hself : (b.members_.assign u fd).find u = some fd := StrMap.find_assign_self _ _ _
  refine ⟨dispatch_groupjoin_of_not_member boards u fd t c g s m i b hb hfind,
    StrMap.mem_keys_of_find _ _ _ hself, ?_, ?_, ?_, ?_, by decide, by decide, by decide⟩
  · exact List.mem_map.2 ⟨(u, fd), StrMap.mem_keys_of_find _ _ _ hself, rfl⟩
  · intro x fd₀ hx
    have hxu : x ≠ u := by
      intro e
      rw [e, hfind] at hx
      exact Option.noConfusion hx
    apply StrMap.mem_keys_of_find
    rw [StrMap.find_assign_ne _ _ _ _ hxu]
    exact hx
  · intro a ha
    unfold send_prev_two_messages at ha
    simp only [hself] at ha
    by_cases h₂ : wrap32 (b.messages_.length : Int) ≥ 2
    · simp only [if_pos h₂, send_all, List.mem_cons, List.mem_singleton] at ha
      rcases ha with h | h | h
      · rw [h]
      · rw [h]
      · exact absurd h (List.not_mem_nil _)
    · by_cases h₁ : wrap32 (b.messages_.length : Int) = 1
      · simp only [if_neg h₂, if_pos h₁, send_all, List.mem_singleton] at ha
        rw [ha]
      · simp only [if_neg h₂, if_neg h₁] at ha
        exact absurd ha (List.not_mem_nil _)
  · intro hlen
    exact send_prev_two_messages_eq_drop
      { b with members_ := b.members_.assign u fd } u fd hself hlen

/-- An instance of claim C18: carl joins `default`, which holds three posts and
the members alice and bob. -/
theorem groupjoin_inserts_lists_then_catches_up_witness :
    dispatch
        [("default", BulletinBoard.mk
          ["1, alice, T1, s1, b1", "2, bob, T2, s2, b2", "3, alice, T3, s3, b3"]
          [("alice", 4), ("bob", 5)])] "carl" 6 "T" "%groupjoin"
        (Request.mk (some "%groupjoin") (some "default") none none none) =
      { boards := [("default", BulletinBoard.mk
          ["1, alice, T1, s1, b1", "2, bob, T2, s2, b2", "3, alice, T3, s3, b3"]
          [("alice", 4), ("bob", 5), ("carl", 6)])],
        sent := [(4, "users: alice, bob, carl \n"), (5, "users: alice, bob, carl \n"),
                 (6, "users: alice, bob, carl \n"), (6, "2, bob, T2, s2, b2\n"),
                 (6, "3, alice, T3, s3, b3\n")],
        status := Status.Active } ∧
    ("carl", (6 : Int)) ∈ StrMap.assign [("alice", (4 : Int)), ("bob", 5)] "carl" 6 :=
  ⟨by decide,
   (groupjoin_inserts_lists_then_catches_up
      [("default", BulletinBoard.mk
        ["1, alice, T1, s1, b1", "2, bob, T2, s2, b2", "3, alice, T3, s3, b3"]
        [("alice", 4), ("bob", 5)])] "carl" 6 "T" (some "%groupjoin") "default" none none none
      (BulletinBoard.mk
        ["1, alice, T1, s1, b1", "2, bob, T2, s2, b2", "3, alice, T3, s3, b3"]
        [("alice", 4), ("bob", 5)]) (by decide) (by decide)).2.1⟩

/-! ## `trim` (C19) -/

theorem space_at_of_lt (cs : List Char) (i : Nat) (h : i < cs.length) :
    space_at cs i = isspace cs[i] := by
  unfold space_at
  rw [List.getElem?_eq_getElem h]

theorem trim_start_spec (cs : List Char) (fuel start : Nat) (hs : start ≤ cs.length)
    (hf : cs.length - start ≤ fuel) (hpre : ∀ i, i < start → space_at cs i = true) :
    start ≤ trim_start cs fuel start ∧ trim_start cs fuel start ≤ cs.length ∧
    (∀ i, i < trim_start cs fuel start → space_at cs i = true) ∧
    (trim_start cs fuel start < cs.length → space_at cs (trim_start cs fuel start) = false) := by
  induction fuel generalizing start with
  | zero =>
    have he : start = cs.length := by omega
    unfold trim_start
    exact ⟨le_refl _, hs, hpre, fun h => absurd h (by omega)⟩
  | succ fuel ih =>
    unfold trim_start
    by_cases hc : start < cs.length ∧ space_at cs start = true
    · rw [if_pos hc]
      have hpre' : ∀ i, i < start + 1 → space_at cs i = true := by
        intro i hi
        by_cases e : i = start
        · rw [e]; exact hc.2
        · exact hpre i (by omega)
      have h := ih (start + 1) (by omega) (by omega) hpre'
      exact ⟨by omega, h.2.1, h.2.2.1, h.2.2.2⟩
    · rw [if_neg hc]
      refine ⟨le_refl _, hs, hpre, ?_⟩
      intro hlt
      cases hsp : space_at cs start with
      | false => rfl
      | true => exact absurd ⟨hlt, hsp⟩ hc

theorem trim_end_spec (cs : List Char) (start fuel e : Nat) (hs : start ≤ e)
    (hf : e - start ≤ fuel)
    (hpost : ∀ i, e < i → i < cs.length → space_at cs i = true) :
    start ≤ trim_end cs start fuel e ∧ trim_end cs start fuel e ≤ e ∧
    (∀ i, trim_end cs start fuel e < i → i < cs.length → space_at cs i = true) ∧
    (start < trim_end cs start fuel e → space_at cs (trim_end cs start fuel e) = false) := by
  induction fuel generalizing e with
  | zero =>
    have he : e = start := by omega
    unfold trim_end
    exact ⟨hs, le_refl _, hpost, fun h => absurd h (by omega)⟩
  | succ fuel ih =>
    unfold trim_end
    by_cases hc : e > start ∧ space_at cs e = true
    · rw [if_pos hc]
      have hpost' : ∀ i, e - 1 < i → i < cs.length → space_at cs i = true := by
        intro i hi hlen
        by_cases h : i = e
        · rw [h]; exact hc.2
        · exact hpost i (by omega) hlen
      have h := ih (e - 1) (by omega) (by omega) hpost'
      exact ⟨h.1, by omega, h.2.2.1, h.2.2.2⟩
    · rw [if_neg hc]
      refine ⟨hs, le_refl _, hpost, ?_⟩
      intro hlt
      cases hsp : space_at cs e with
      | false => rfl
      | true => exact absurd ⟨hlt, hsp⟩ hc

theorem trim_start_checked_eq (cs : List Char) (fuel start : Nat) (hs : start ≤ cs.length)
    (hf : cs.length - start ≤ fuel) :
    trim_start_checked cs (fuel + 1) start = some (trim_start cs fuel start) := by
  induction fuel generalizing start with
  | zero =>
    have he : ¬ start < cs.length := by omega
    unfold trim_start_checked trim_start
    rw [if_neg he]
  | succ fuel ih =>
    unfold trim_start_checked trim_start
    by_cases hlt : start < cs.length
    · rw [if_pos hlt, List.getElem?_eq_getElem hlt]
      simp only []
      by_cases hsp : isspace cs[start] = true
      · have hc : start < cs.length ∧ space_at cs start = true :=
          ⟨hlt, by rw [space_at_of_lt cs start hlt]; exact hsp⟩
        rw [if_pos hsp, if_pos hc]
        exact ih (start + 1) (by omega) (by omega)
      · have hc : ¬ (start < cs.length ∧ space_at cs start = true) := by
          intro h
          rw [space_at_of_lt cs start hlt] at h
          exact hsp h.2
        rw [if_neg hsp, if_neg hc]
    · have hc : ¬ (start < cs.length ∧ space_at cs start = true) := fun h => hlt h.1
      rw [if_neg hlt, if_neg hc]

theorem trim_end_checked_eq (cs : List Char) (start fuel e : Nat) (he : e < cs.length)
    (hf : e - start ≤ fuel) :
    trim_end_checked cs start (fuel + 1) e = some (trim_end cs start fuel e) := by
  induction fuel generalizing e with
  | zero =>
    have hgt : ¬ e > start := by omega
    unfold trim_end_checked trim_end
    rw [if_neg hgt]
  | succ fuel ih =>
    unfold trim_end_checked trim_end
    by_cases hgt : e > start
    · rw [if_pos hgt, List.getElem?_eq_getElem he]
      simp only []
      by_cases hsp : isspace cs[e] = true
      · have hc : e > start ∧ space_at cs e = true :=
          ⟨hgt, by rw [space_at_of_lt cs e he]; exact hsp⟩
        rw [if_pos hsp, if_pos hc]
        exact ih (e - 1) (by omega) (by omega)
      · have hc : ¬ (e > start ∧ space_at cs e = true) := by
          intro h
          rw [space_at_of_lt cs e he] at h
          exact hsp h.2
        rw [if_neg hsp, if_neg hc]
    · have hc : ¬ (e > start ∧ space_at cs e = true) := fun h => hgt h.1
      rw [if_neg hgt, if_neg hc]

theorem isspace_of_space_at (cs : List Char) (k : Nat) (c : Char) (hk : cs[k]? = some c)
    (h : space_at cs k = true) : isspace c = true := by
  unfold space_at at h
  rw [hk] at h
  exact h

theorem not_isspace_of_space_at (cs : List Char) (k : Nat) (c : Char) (hk : cs[k]? = some c)
    (h : space_at cs k = false) : isspace c = false := by
  unfold space_at at h
  rw [hk] at h
  exact h

/-- What `trim` returns, by the three ways through its body: the empty string
unchanged; the empty string for a string of whitespace; otherwise the
characters from the first to the last one that is no whitespace. -/
theorem trim_cases (s : String) :
    (s.data = [] ∧ trim s = s) ∨
    (s.data ≠ [] ∧ (∀ c ∈ s.data, isspace c = true) ∧ trim s = "") ∨
    (∃ i j, i ≤ j ∧ j < s.data.length ∧
      (∀ k, k < i → space_at s.data k = true) ∧
      (∀ k, j < k → k < s.data.length → space_at s.data k = true) ∧
      space_at s.data i = false ∧ space_at s.data j = false ∧
      trim s = ⟨(s.data.drop i).take (j - i + 1)⟩) := by
  by_cases hnil : s.data = []
  · left
    refine ⟨hnil, ?_⟩
    unfold trim
    have he : s.data.isEmpty = true := by rw [hnil]; rfl
    rw [if_pos he]
  · right
    have he : ¬ s.data.isEmpty = true := fun e => hnil (List.isEmpty_iff.1 e)
    have hpos : 0 < s.data.length := List.length_pos.2 hnil
    have hst := trim_start_spec s.data s.data.length 0 (Nat.zero_le _) (by omega)
      (fun i hi => absurd hi (Nat.not_lt_zero i))
    by_cases hall : trim_start s.data s.data.length 0 = s.data.length
    · left
      refine ⟨hnil, ?_, ?_⟩
      · intro c hc
        obtain ⟨n, hn⟩ := List.mem_iff_getElem?.1 hc
        have hlt : n < s.data.length := by
          obtain ⟨h, _⟩ := List.getElem?_eq_some.1 hn
          exact h
        exact isspace_of_space_at s.data n c hn (hst.2.2.1 n (by omega))
      · unfold trim
        rw [if_neg he]
        simp only [if_pos hall]
    · right
      have hlt : trim_start s.data s.data.length 0 < s.data.length := by omega
      have hen := trim_end_spec s.data (trim_start s.data s.data.length 0) s.data.length
        (s.data.length - 1) (by omega) (by omega)
        (fun i h₁ h₂ => absurd h₂ (by omega))
      refine ⟨trim_start s.data s.data.length 0,
        trim_end s.data (trim_start s.data s.data.length 0) s.data.length (s.data.length - 1),
        hen.1, by omega, hst.2.2.1, hen.2.2.1, hst.2.2.2 hlt, ?_, ?_⟩
      · by_cases hlt' : trim_start s.data s.data.length 0 <
            trim_end s.data (trim_start s.data s.data.length 0) s.data.length
              (s.data.length - 1)
        · exact hen.2.2.2 hlt'
        · have heq : trim_end s.data (trim_start s.data s.data.length 0) s.data.length
              (s.data.length - 1) = trim_start s.data s.data.length 0 := by
            have := hen.1
            omega
          rw [heq]
          exact hst.2.2.2 hlt
      · unfold trim
        rw [if_neg he]
        simp only [if_neg hall]

theorem trim_of_clean (t : List Char)
    (h : t = [] ∨ ((∃ a, t.head? = some a ∧ isspace a = false) ∧
      (∃ z, t.getLast? = some z ∧ isspace z = false))) :
    trim ⟨t⟩ = ⟨t⟩ := by
  rcases trim_cases ⟨t⟩ with ⟨_, h₁⟩ | ⟨hne, hall, _⟩ | ⟨i, j, hij, hj, hpre, hpost, hi, hj', heq⟩
  · exact h₁
  · rcases h with h | ⟨⟨a, ha, hsp⟩, _⟩
    · exact absurd h hne
    · have hmem : a ∈ t := List.mem_of_mem_head? ha
      have := hall a hmem
      rw [hsp] at this
      exact absurd this (by decide)
  · have hj₀ : j < t.length := hj
    have hpre : ∀ k, k < i → space_at t k = true := hpre
    have hpost : ∀ k, j < k → k < t.length → space_at t k = true := hpost
    rcases h with h | ⟨⟨a, ha, hsp⟩, ⟨z, hz, hzsp⟩⟩
    · rw [h] at hj₀
      exact absurd hj₀ (Nat.not_lt_zero _)
    · have hi0 : i = 0 := by
        by_contra hne
        have h0 := hpre 0 (by omega)
        rw [List.head?_eq_getElem?] at ha
        have := isspace_of_space_at t 0 a ha h0
        rw [hsp] at this
        exact absurd this (by decide)
      have hjl : j = t.length - 1 := by
        by_contra hne
        have hl := hpost (t.length - 1) (by omega) (by omega)
        rw [List.getLast?_eq_getElem?] at hz
        have := isspace_of_space_at t (t.length - 1) z hz hl
        rw [hzsp] at this
        exact absurd this (by decide)
      rw [heq]
      apply String.ext
      show (List.drop i t).take (j - i + 1) = t
      rw [hi0, hjl, List.drop_zero]
      apply List.take_of_length_le
      omega

theorem isspace_iff (c : Char) :
    isspace c = true ↔
      c = Char.ofNat 32 ∨ c = Char.ofNat 9 ∨ c = Char.ofNat 10 ∨ c = Char.ofNat 11 ∨
        c = Char.ofNat 12 ∨ c = Char.ofNat 13 := by
  constructor
  · intro h
    unfold isspace at h
    have hc : c = Char.ofNat c.toNat := (Char.ofNat_toNat c).symm
    have hr : c.toNat = 32 ∨ c.toNat = 9 ∨ c.toNat = 10 ∨ c.toNat = 11 ∨ c.toNat = 12 ∨
        c.toNat = 13 := by
      simp only [Bool.or_eq_true, Bool.and_eq_true, decide_eq_true_eq] at h
      omega
    rcases hr with h | h | h | h | h | h <;> rw [h] at hc
    · exact Or.inl hc
    · exact Or.inr (Or.inl hc)
    · exact Or.inr (Or.inr (Or.inl hc))
    · exact Or.inr (Or.inr (Or.inr (Or.inl hc)))
    · exact Or.inr (Or.inr (Or.inr (Or.inr (Or.inl hc))))
    · exact Or.inr (Or.inr (Or.inr (Or.inr (Or.inr hc))))
  · intro h
    rcases h with h | h | h | h | h | h <;> subst h <;> decide

theorem trim_decompose (s : String) :
    ∃ l r, s.data = l ++ (trim s).data ++ r ∧
      (∀ c ∈ l, isspace c = true) ∧ (∀ c ∈ r, isspace c = true) ∧
      (((trim s).data = [] ∧ ∀ c ∈ s.data, isspace c = true) ∨
        ((∃ a, (trim s).data.head? = some a ∧ isspace a = false) ∧
          (∃ z, (trim s).data.getLast? = some z ∧ isspace z = false))) := by
  rcases trim_cases s with ⟨hnil, h₁⟩ | ⟨hne, hall, h₂⟩ | ⟨i, j, hij, hj, hpre, hpost, hi, hj', heq⟩
  · refine ⟨[], [], ?_, ?_, ?_, Or.inl ⟨?_, ?_⟩⟩
    · rw [h₁, hnil]; rfl
    · intro c hc; exact absurd hc (List.not_mem_nil c)
    · intro c hc; exact absurd hc (List.not_mem_nil c)
    · rw [h₁]; exact hnil
    · intro c hc; rw [hnil] at hc; exact absurd hc (List.not_mem_nil c)
  · refine ⟨s.data, [], ?_, hall, ?_, Or.inl ⟨?_, hall⟩⟩
    · rw [h₂]
      show s.data = s.data ++ [] ++ []
      simp
    · intro c hc; exact absurd hc (List.not_mem_nil c)
    · rw [h₂]
  · have hdata : (trim s).data = (s.data.drop i).take (j - i + 1) := by rw [heq]
    have hci : s.data[i]? = some (s.data[i]) := List.getElem?_eq_getElem (by omega)
    have hcj : s.data[j]? = some (s.data[j]) := List.getElem?_eq_getElem hj
    refine ⟨s.data.take i, (s.data.drop i).drop (j - i + 1), ?_, ?_, ?_, Or.inr ⟨?_, ?_⟩⟩
    · rw [hdata, List.append_assoc, List.take_append_drop, List.take_append_drop]
    · intro c hc
      obtain ⟨n, hn⟩ := List.mem_iff_getElem?.1 hc
      rw [List.getElem?_take] at hn
      by_cases hlt : n < i
      · rw [if_pos hlt] at hn
        exact isspace_of_space_at s.data n c hn (hpre n hlt)
      · rw [if_neg hlt] at hn
        exact Option.noConfusion hn
    · intro c hc
      obtain ⟨n, hn⟩ := List.mem_iff_getElem?.1 hc
      rw [List.getElem?_drop, List.getElem?_drop] at hn
      obtain ⟨hlt, _⟩ := List.getElem?_eq_some.1 hn
      exact isspace_of_space_at s.data _ c hn (hpost _ (by omega) hlt)
    · refine ⟨s.data[i], ?_, not_isspace_of_space_at s.data i _ hci hi⟩
      rw [hdata, List.head?_eq_getElem?, List.getElem?_take, if_pos (by omega),
        List.getElem?_drop, Nat.add_zero]
      exact hci
    · refine ⟨s.data[j], ?_, not_isspace_of_space_at s.data j _ hcj hj'⟩
      have hlen : ((s.data.drop i).take (j - i + 1)).length = j - i + 1 := by
        rw [List.length_take, List.length_drop]
        omega
      rw [hdata, List.getLast?_eq_getElem?, hlen, List.getElem?_take, if_pos (by omega),
        List.getElem?_drop, show i + (j - i + 1 - 1) = j by omega]
      exact hcj

theorem trim_checked_eq (s : String) : trim_checked s = some (trim s) := by
  unfold trim_checked trim
  by_cases he : s.data.isEmpty = true
  · rw [if_pos he, if_pos he]
  · have hnil : s.data ≠ [] := fun e => he (by rw [e]; rfl)
    have hpos : 0 < s.data.length := List.length_pos.2 hnil
    rw [if_neg he, if_neg he,
      trim_start_checked_eq s.data s.data.length 0 (Nat.zero_le _) (by omega)]
    simp only []
    have hst := trim_start_spec s.data s.data.length 0 (Nat.zero_le _) (by omega)
      (fun i hi => absurd hi (Nat.not_lt_zero i))
    by_cases hall : trim_start s.data s.data.length 0 = s.data.length
    · rw [if_pos hall, if_pos hall]
    · rw [if_neg hall, if_neg hall,
        trim_end_checked_eq s.data _ s.data.length (s.data.length - 1) (by omega) (by omega)]
      simp only []
      have hen := trim_end_spec s.data (trim_start s.data s.data.length 0) s.data.length
        (s.data.length - 1) (by omega) (by omega)
        (fun i h₁ h₂ => absurd h₂ (by omega))
      rw [if_pos ⟨hen.1, hst.2.1⟩]

/-- Claim C19. For every string `s`: `s = l ++ trim(s) ++ r` with `l` and `r`
made of whitespace only (space, `\t`, `\n`, `\v`, `\f`, `\r`); `trim(s)` is
empty exactly when every character of `s` is whitespace (so also for the empty
`s`), and otherwise begins and ends with a character that is no whitespace;
run with every index checked, `trim` meets no index out of range and both
loops end; and `trim(trim(s)) = trim(s)`. -/
theorem trim_removes_surrounding_whitespace (s : String) :
    (∃ l r, s.data = l ++ (trim s).data ++ r ∧
      (∀ c ∈ l, isspace c = true) ∧ (∀ c ∈ r, isspace c = true)) ∧
    (trim s = "" ↔ ∀ c ∈ s.data, isspace c = true) ∧
    (trim s ≠ "" →
      (∃ a, (trim s).data.head? = some a ∧ isspace a = false) ∧
      (∃ z, (trim s).data.getLast? = some z ∧ isspace z = false)) ∧
    trim_checked s = some (trim s) ∧
    trim (trim s) = trim s ∧
    (∀ c : Char, isspace c = true ↔
      c = Char.ofNat 32 ∨ c = Char.ofNat 9 ∨ c = Char.ofNat 10 ∨ c = Char.ofNat 11 ∨
        c = Char.ofNat 12 ∨ c = Char.ofNat 13) := by
  obtain ⟨l, r, hdec, hl, hr, hends⟩ := trim_decompose s
  refine ⟨⟨l, r, hdec, hl, hr⟩, ?_, ?_, trim_checked_eq s, ?_, isspace_iff⟩
  · constructor
    · intro he c hc
      rw [hdec, he] at hc
      have hc' : c ∈ l ++ r := by simpa using hc
      rcases List.mem_append.1 hc' with h | h
      · exact hl c h
      · exact hr c h
    · intro hall
      rcases hends with ⟨hnil, _⟩ | ⟨⟨a, ha, hsp⟩, _⟩
      · exact String.ext hnil
      · have hmem : a ∈ s.data := by
          rw [hdec]
          exact List.mem_append_left _ (List.mem_append_right _ (List.mem_of_mem_head? ha))
        have := hall a hmem
        rw [hsp] at this
        exact absurd this (by decide)
  · intro hne
    rcases hends with ⟨hnil, _⟩ | h
    · exact absurd (String.ext hnil) hne
    · exact h
  · have hclean : (trim s).data = [] ∨
        ((∃ a, (trim s).data.head? = some a ∧ isspace a = false) ∧
          (∃ z, (trim s).data.getLast? = some z ∧ isspace z = false)) := by
      rcases hends with ⟨hnil, _⟩ | h
      · exact Or.inl hnil
      · exact Or.inr h
    exact trim_of_clean (trim s).data hclean

/-- An instance of claim C19: a string with whitespace around and inside. -/
theorem trim_removes_surrounding_whitespace_witness :
    trim " \t a b \r\n" = "a b" ∧
    trim_checked " \t a b \r\n" = some "a b" ∧
    ((∃ a, (trim " \t a b \r\n").data.head? = some a ∧ isspace a = false) ∧
      (∃ z, (trim " \t a b \r\n").data.getLast? = some z ∧ isspace z = false)) :=
  ⟨by decide, by decide,
   (trim_removes_surrounding_whitespace " \t a b \r\n").2.2.1 (by decide)⟩

/-! ## The user list (C20) -/

theorem intercalate_go_append (acc v : String) (rest : List String) :
    String.intercalate.go (acc ++ v) ", " rest = acc ++ String.intercalate.go v ", " rest := by
  induction rest generalizing v with
  | nil => rfl
  | cons a rest ih =>
    show String.intercalate.go (acc ++ v ++ ", " ++ a) ", " rest =
      acc ++ String.intercalate.go (v ++ ", " ++ a) ", " rest
    rw [← ih (v ++ ", " ++ a)]
    simp only [String.append_assoc]

theorem user_list_eq_intercalate (l : List String) : user_list l = ", ".intercalate l := by
  induction l with
  | nil => rfl
  | cons u rest ih =>
    cases rest with
    | nil => rfl
    | cons v rest =>
      show u ++ ", " ++ user_list (v :: rest) = String.intercalate.go (u ++ ", " ++ v) ", " rest
      rw [ih, intercalate_go_append]
      rfl

theorem keys_nodup_of_WF (m : StrMap Int) (h : m.WF) : m.keys.Nodup := by
  unfold StrMap.WF at h
  have himp : ∀ a b : String, StrMap.key_lt a b → a ≠ b := by
    intro a b hab e
    rw [e] at hab
    exact StrMap.key_lt_irrefl b hab
  exact List.Pairwise.imp (fun {a b} hab => himp a b hab) h

theorem mem_keys_iff_find (m : StrMap Int) (x : String) :
    x ∈ m.keys ↔ ∃ fd, m.find x = some fd := by
  constructor
  · intro h
    cases hf : m.find x with
    | some fd => exact ⟨fd, rfl⟩
    | none =>
      exfalso
      induction m with
      | nil => simp [StrMap.keys] at h
      | cons p rest ih =>
        obtain ⟨k, v⟩ := p
        unfold StrMap.find at hf
        by_cases hk : k = x
        · simp [if_pos hk] at hf
        · simp only [if_neg hk] at hf
          have h' : x ∈ StrMap.keys rest := by
            simp only [StrMap.keys, List.map_cons, List.mem_cons] at h
            rcases h with h | h
            · exact absurd h.symm hk
            · exact h
          exact ih h' hf
  · intro ⟨fd, h⟩
    exact List.mem_map.2 ⟨(x, fd), StrMap.mem_keys_of_find m x fd h, rfl⟩

theorem mem_keys_iff_has_member (b : BulletinBoard) (x : String) :
    x ∈ b.members_.keys ↔ b.has_member x = true := by
  rw [mem_keys_iff_find, has_member_eq_true_iff, StrMap.count_pos_iff]

theorem keys_eq_of_same_members (m₁ m₂ : StrMap Int) (h₁ : m₁.WF) (h₂ : m₂.WF)
    (h : ∀ x, x ∈ m₁.keys ↔ x ∈ m₂.keys) : m₁.keys = m₂.keys := by
  have hperm : List.Perm m₁.keys m₂.keys :=
    (List.perm_ext_iff_of_nodup (keys_nodup_of_WF m₁ h₁) (keys_nodup_of_WF m₂ h₂)).2 h
  haveI : IsAntisymm String StrMap.key_lt :=
    ⟨fun a b hab hba => absurd (StrMap.key_lt_trans hab hba) (StrMap.key_lt_irrefl a)⟩
  exact List.eq_of_perm_of_sorted hperm h₁ h₂

theorem lex_append_left (p a b : List Nat) (h : a < b) : p ++ a < p ++ b := by
  induction p with
  | nil => exact h
  | cons x p ih => exact List.Lex.cons ih

theorem utf8_code_lt (m n : Nat) (h : m < n) (t₁ t₂ : List Nat) :
    utf8_code m ++ t₁ < utf8_code n ++ t₂ := by
  unfold utf8_code
  by_cases hm₁ : m < 128
  · rw [if_pos hm₁]
    by_cases hn₁ : n < 128
    · rw [if_pos hn₁]
      exact List.Lex.rel h
    · rw [if_neg hn₁]
      by_cases hn₂ : n < 2048
      · rw [if_pos hn₂]
        exact List.Lex.rel (by omega)
      · rw [if_neg hn₂]
        by_cases hn₃ : n < 65536
        · rw [if_pos hn₃]
          exact List.Lex.rel (by omega)
        · rw [if_neg hn₃]
          exact List.Lex.rel (by omega)
  · have hn₁ : ¬ n < 128 := by omega
    rw [if_neg hm₁, if_neg hn₁]
    by_cases hm₂ : m < 2048
    · rw [if_pos hm₂]
      by_cases hn₂ : n < 2048
      · rw [if_pos hn₂]
        by_cases h₁ : 192 + m / 64 < 192 + n / 64
        · exact List.Lex.rel h₁
        · have e₁ : 192 + m / 64 = 192 + n / 64 := by omega
          rw [e₁]
          exact List.Lex.cons (List.Lex.rel (by omega))
      · rw [if_neg hn₂]
        by_cases hn₃ : n < 65536
        · rw [if_pos hn₃]
          exact List.Lex.rel (by omega)
        · rw [if_neg hn₃]
          exact List.Lex.rel (by omega)
    · have hn₂ : ¬ n < 2048 := by omega
      rw [if_neg hm₂, if_neg hn₂]
      by_cases hm₃ : m < 65536
      · rw [if_pos hm₃]
        by_cases hn₃ : n < 65536
        · rw [if_pos hn₃]
          by_cases h₁ : 224 + m / 4096 < 224 + n / 4096
          · exact List.Lex.rel h₁
          · have e₁ : 224 + m / 4096 = 224 + n / 4096 := by omega
            rw [e₁]
            apply List.Lex.cons
            by_cases h₂ : 128 + m / 64 % 64 < 128 + n / 64 % 64
            · exact List.Lex.rel h₂
            · have e₂ : 128 + m / 64 % 64 = 128 + n / 64 % 64 := by omega
              rw [e₂]
              exact List.Lex.cons (List.Lex.rel (by omega))
        · rw [if_neg hn₃]
          exact List.Lex.rel (by omega)
      · have hn₃ : ¬ n < 65536 := by omega
        rw [if_neg hm₃, if_neg hn₃]
        by_cases h₁ : 240 + m / 262144 < 240 + n / 262144
        · exact List.Lex.rel h₁
        · have e₁ : 240 + m / 262144 = 240 + n / 262144 := by omega
          rw [e₁]
          apply List.Lex.cons
          by_cases h₂ : 128 + m / 4096 % 64 < 128 + n / 4096 % 64
          · exact List.Lex.rel h₂
          · have e₂ : 128 + m / 4096 % 64 = 128 + n / 4096 % 64 := by omega
            rw [e₂]
            apply List.Lex.cons
            by_cases h₃ : 128 + m / 64 % 64 < 128 + n / 64 % 64
            · exact List.Lex.rel h₃
            · have e₃ : 128 + m / 64 % 64 = 128 + n / 64 % 64 := by omega
              rw [e₃]
              exact List.Lex.cons (List.Lex.rel (by omega))

theorem utf8_code_ne_nil (n : Nat) : ∃ x xs, utf8_code n = x :: xs := by
  unfold utf8_code
  by_cases h₁ : n < 128
  · rw [if_pos h₁]; exact ⟨_, _, rfl⟩
  · rw [if_neg h₁]
    by_cases h₂ : n < 2048
    · rw [if_pos h₂]; exact ⟨_, _, rfl⟩
    · rw [if_neg h₂]
      by_cases h₃ : n < 65536
      · rw [if_pos h₃]; exact ⟨_, _, rfl⟩
      · rw [if_neg h₃]; exact ⟨_, _, rfl⟩

theorem utf8_chars_lt (a b : List Char) (h : a < b) : utf8_chars a < utf8_chars b := by
  induction h with
  | @nil c l =>
    obtain ⟨x, xs, hx⟩ := utf8_code_ne_nil c.toNat
    show [] < utf8_code c.toNat ++ utf8_chars l
    rw [hx]
    exact List.Lex.nil
  | @cons c l₁ l₂ _ ih => exact lex_append_left _ _ _ ih
  | @rel c l₁ d l₂ hcd => exact utf8_code_lt c.toNat d.toNat hcd _ _

/-- The order of the keys of a `std::map<std::string, T>` in the embedding is
the byte-wise lexicographic order of the strings' UTF-8 bytes. -/
theorem key_lt_iff_bytes_lt (a b : String) :
    StrMap.key_lt a b ↔ utf8_bytes a < utf8_bytes b := by
  unfold StrMap.key_lt utf8_bytes
  constructor
  · exact utf8_chars_lt a.data b.data
  · intro h
    rcases lt_trichotomy a.data b.data with hlt | heq | hgt
    · exact hlt
    · rw [heq] at h
      exact absurd h (lt_irrefl _)
    · exact absurd (lt_trans h (utf8_chars_lt _ _ hgt)) (lt_irrefl _)

/-- Claim C20. On a board with members the text of `group_users` is `users: `,
the member names joined by `, `, a blank and a newline; the names are the
current members, each once, in ascending byte-wise lexicographic order, so two
boards with the same members, whatever joins and leaves made them, give the
same text. A broadcast sends that one text once per member entry, to its
connection; on a board without members `group_users` sends nothing. -/
theorem user_list_is_sorted_member_names (b : BulletinBoard) (hwf : b.members_.WF) :
    (b.members_ ≠ [] →
      b.group_users "" =
        { board := b,
          sent := b.members_.map
            (fun p => (p.2, "users: " ++ ", ".intercalate b.members_.keys ++ " \n")),
          error := none }) ∧
    (∀ u fd, u ≠ "" → b.members_.find u = some fd →
      (b.group_users u).sent =
        [(fd, "users: " ++ ", ".intercalate b.members_.keys ++ " \n")]) ∧
    b.members_.keys.Nodup ∧
    (∀ x, x ∈ b.members_.keys ↔ b.has_member x = true) ∧
    b.members_.keys.Pairwise (fun x y => utf8_bytes x < utf8_bytes y) ∧
    (∀ b₂ : BulletinBoard, b₂.members_.WF → (∀ x, b₂.has_member x = b.has_member x) →
      b₂.members_.keys = b.members_.keys) ∧
    (∀ calls₁ calls₂ : List Call,
      (∀ x, (run_calls BulletinBoard.empty calls₁).has_member x =
        (run_calls BulletinBoard.empty calls₂).has_member x) →
      (run_calls BulletinBoard.empty calls₁).members_.keys =
        (run_calls BulletinBoard.empty calls₂).members_.keys) ∧
    (b.members_ = [] → ∀ u, (b.group_users u).sent = []) := by
  have hsame : ∀ m₁ m₂ : BulletinBoard, m₁.members_.WF → m₂.members_.WF →
      (∀ x, m₁.has_member x = m₂.has_member x) → m₁.members_.keys = m₂.members_.keys := by
    intro m₁ m₂ h₁ h₂ h
    apply keys_eq_of_same_members _ _ h₁ h₂
    intro x
    rw [mem_keys_iff_has_member, mem_keys_iff_has_member, h x]
  refine ⟨?_, ?_, keys_nodup_of_WF _ hwf, mem_keys_iff_has_member b, ?_, ?_, ?_, ?_⟩
  · intro hne
    rw [group_users_broadcast b hne, user_list_eq_intercalate]
  · intro u fd hu hfind
    rw [group_users_of_target b u hu, hfind, user_list_eq_intercalate]
  · exact List.Pairwise.imp (fun {x y} h => (key_lt_iff_bytes_lt x y).1 h) hwf
  · intro b₂ h₂ h
    exact hsame b₂ b h₂ hwf h
  · intro calls₁ calls₂ h
    have hempty : BulletinBoard.empty.members_.WF := List.Pairwise.nil
    exact hsame _ _ (run_calls_WF _ calls₁ hempty) (run_calls_WF _ calls₂ hempty) h
  · intro hnil u
    rw [group_users_of_no_members b u hnil]

/-- An instance of claim C20: carl, alice and bob join in that order and alice
leaves; the list names bob and carl, in that order. -/
theorem user_list_is_sorted_member_names_witness :
    (run_calls BulletinBoard.empty
        [Call.join "carl" 6, Call.join "alice" 4, Call.join "bob" 5,
         Call.leave "alice"]).group_users "" =
      { board := BulletinBoard.mk [] [("bob", 5), ("carl", 6)],
        sent := [(5, "users: bob, carl \n"), (6, "users: bob, carl \n")],
        error := none } ∧
    ((run_calls BulletinBoard.empty
        [Call.join "carl" 6, Call.join "alice" 4, Call.join "bob" 5,
         Call.leave "alice"]).group_users "").sent =
      (run_calls BulletinBoard.empty
        [Call.join "carl" 6, Call.join "alice" 4, Call.join "bob" 5,
         Call.leave "alice"]).members_.map
        (fun p => (p.2, "users: " ++ ", ".intercalate
          (run_calls BulletinBoard.empty
            [Call.join "carl" 6, Call.join "alice" 4, Call.join "bob" 5,
             Call.leave "alice"]).members_.keys ++ " \n")) :=
  ⟨by decide,
   congrArg Outcome.sent
    ((user_list_is_sorted_member_names
      (run_calls BulletinBoard.empty
        [Call.join "carl" 6, Call.join "alice" 4, Call.join "bob" 5, Call.leave "alice"])
      (by decide)).1 (by decide))⟩

end BBS
